import Mathlib

/-!
Shallow embedding of `AlertScheduler`
(src/CapabilityAgents/Alerts/src/AlertScheduler.cpp).

The scheduler state consists of the ordered set of scheduled alerts, the
at-most-one active alert, the focus state, the single-shot timer, the
persisted storage rows, and the log of observer notifications submitted to
the serial executor.  Each C++ member function becomes a pure Lean function
on this state.  Fallible collaborators (the storage backend and the time
source) are modelled by explicit oracle arguments: a `Bool` (or a
token-indexed function) saying whether the corresponding storage call
succeeds, and an `Option Int` for the wall-clock read.

The `Alert` entity, the storage backend and the set comparator live outside
the provided source file; where their behaviour is needed it is modelled
from the specification and marked as such in the doc comment.
-/

namespace AlertSchedulerModel

/-- Internal alert state, per the spec's Alert entity state machine
(`Unset, Set, Activating, Active, Snoozing, Snoozed, Stopping, Stopped,
Completed`). -/
inductive AlertState where
  | unset
  | isSet
  | activating
  | active
  | snoozing
  | snoozed
  | stopping
  | stopped
  | completed
deriving DecidableEq, Repr

/-- Stop reasons used by `Alert::deactivate` (`AVS_STOP`, `LOCAL_STOP`,
`SHUTDOWN`). -/
inductive StopReason where
  | avsStop
  | localStop
  | shutdown
deriving DecidableEq, Repr

/-- Focus state (`avsCommon::avs::FocusState`): `NONE`, `BACKGROUND`,
`FOREGROUND`. -/
inductive FocusState where
  | noFocus
  | background
  | foreground
deriving DecidableEq, Repr

/-- Observer-visible alert states (`AlertObserverInterface::State`). -/
inductive ObsState where
  | ready
  | started
  | stopped
  | completed
  | snoozed
  | pastDue
  | focusEnteredForeground
  | focusEnteredBackground
  | deleted
  | error
deriving DecidableEq, Repr

/-- The data of one alert, as visible to the scheduler: immutable `token`
and `typeName`, the scheduled wall-clock time in seconds since the Unix
epoch, the internal state, the last stop reason and the focus state handed
to the alert.  A persisted storage row carries the same data, so the same
structure is used for rows. -/
structure AlertData where
  token : String
  typeName : String
  scheduledTime : Int
  state : AlertState
  stopReason : Option StopReason
  focusState : FocusState
deriving DecidableEq, Repr

/-- One observer notification
(`notifyObserver(alertToken, alertType, state, reason)`), in the order the
tasks were submitted to the serial executor. -/
structure Notification where
  token : String
  typeName : String
  state : ObsState
  reason : String
deriving DecidableEq, Repr

/-- The armed single-shot timer: the delay it was started with and the
token/type captured by the `onAlertReady` callback.  `none` models a
stopped (inactive) timer. -/
structure ArmedTimer where
  delaySeconds : Int
  token : String
  typeName : String
deriving DecidableEq, Repr

/-- The whole scheduler state guarded by `m_mutex`, plus the storage
contents and the notification log. -/
structure SchedulerState where
  scheduledAlerts : List AlertData
  activeAlert : Option AlertData
  focusState : FocusState
  timer : Option ArmedTimer
  storage : List AlertData
  notifications : List Notification
deriving DecidableEq, Repr

/-- Strict comparator of the scheduled set: ascending by
`(scheduledTime, token)`, token breaking ties.  Modelled from the spec:
the set comparator is declared in the header, which is not part of the
provided source ("Ordered set of alerts keyed by `(scheduledTime, token)`
ascending; token breaks ties"). -/
def alertLt (a b : AlertData) : Prop :=
  a.scheduledTime < b.scheduledTime ∨
    (a.scheduledTime = b.scheduledTime ∧ a.token < b.token)

instance (a b : AlertData) : Decidable (alertLt a b) := by
  unfold alertLt; infer_instance

/-- Two alerts are equivalent for the scheduled `std::set` iff neither
precedes the other, i.e. they share the comparator key
`(scheduledTime, token)`. -/
def sameKey (a b : AlertData) : Prop :=
  a.scheduledTime = b.scheduledTime ∧ a.token = b.token

instance (a b : AlertData) : Decidable (sameKey a b) := by
  unfold sameKey; infer_instance

/-- `m_scheduledAlerts.begin()`: the least member of the scheduled set in
`(scheduledTime, token)` order (`none` when the set is empty). -/
def nextAlert (l : List AlertData) : Option AlertData :=
  l.foldl
    (fun acc x =>
      match acc with
      | none => some x
      | some m => if alertLt x m then some x else some m)
    none

/-- `std::set::insert`: a no-op when an equivalent member (same comparator
key) is already present. -/
def insertAlert (a : AlertData) (l : List AlertData) : List AlertData :=
  if l.any (fun b => decide (sameKey b a)) then l else l ++ [a]

/-- `std::set::erase(alert)`: removes the member(s) equivalent to the
given alert under the comparator. -/
def eraseAlertFromSet (a : AlertData) (l : List AlertData) : List AlertData :=
  l.filter (fun b => !(decide (sameKey b a)))

/-- `AlertScheduler::getAlertLocked`: the first scheduled alert carrying
the given token, or `none`. -/
def getAlertLocked (tok : String) (l : List AlertData) : Option AlertData :=
  l.find? (fun a => a.token == tok)

/-- `Alert::isPastDue(unixEpochNow, limit)`.  Modelled from the spec: the
Alert entity is not part of the provided source ("An alert whose scheduled
time precedes `now − tolerance` is past-due"). -/
def isPastDue (now tol : Int) (a : AlertData) : Prop :=
  a.scheduledTime < now - tol

instance (now tol : Int) (a : AlertData) : Decidable (isPastDue now tol a) := by
  unfold isPastDue; infer_instance

/-- `Alert::reset()`.  Modelled from the spec: "after `reset()`,
`state = Set`". -/
def resetAlert (a : AlertData) : AlertData :=
  { a with state := AlertState.isSet }

/-- `Alert::deactivate(reason)`.  Modelled from the spec: asks the alert
to stop, driving its state machine toward `Stopped`
(`Active → Stopping → Stopped`) and recording the stop reason. -/
def deactivateAlert (reason : StopReason) (a : AlertData) : AlertData :=
  { a with state := AlertState.stopping, stopReason := some reason }

/-- `Alert::activate()`.  Modelled from the spec: asks the alert to
activate, driving it into `Activating`. -/
def activateAlert (a : AlertData) : AlertData :=
  { a with state := AlertState.activating }

/-- `Alert::setFocusState(focus)`.  Modelled from the spec: hands the
granted focus to the alert. -/
def setAlertFocus (f : FocusState) (a : AlertData) : AlertData :=
  { a with focusState := f }

/-- `Alert::snooze(newTime)`.  Modelled from the spec: asks the alert to
enter `Snoozing` toward `Snoozed` at the new time. -/
def snoozeAlertEntity (newTime : Int) (a : AlertData) : AlertData :=
  { a with state := AlertState.snoozing, scheduledTime := newTime }

/-- Storage `erase(alert)` row effect: remove the row(s) keyed by the
alert's token (rows are keyed by token, spec section 6). -/
def eraseRows (tok : String) (rows : List AlertData) : List AlertData :=
  rows.filter (fun r => !(r.token == tok))

/-- Storage `modify(alert)` row effect: replace the row keyed by the
alert's token with the alert's current data. -/
def modifyRow (a : AlertData) (rows : List AlertData) : List AlertData :=
  rows.map (fun r => if r.token = a.token then a else r)

/-- Storage `bulkErase(list)` row effect: remove every row keyed by one of
the listed alerts' tokens. -/
def bulkEraseRows (alerts : List AlertData) (rows : List AlertData) : List AlertData :=
  rows.filter (fun r => !(alerts.any (fun a => a.token == r.token)))

/-- `AlertScheduler::notifyObserver`: submit one observer notification to
the serial executor (append it to the log). -/
def notifyObserver (tok typ : String) (st : ObsState) (reason : String)
    (s : SchedulerState) : SchedulerState :=
  { s with notifications := s.notifications ++ [⟨tok, typ, st, reason⟩] }

/-- `AlertScheduler::eraseAlert`: a null alert is a no-op; otherwise erase
the row from storage and, only when the erase succeeded, notify the
observer with `DELETED`.  On storage failure it only logs and returns.
`eraseOk` is the storage-success oracle for this call. -/
def eraseAlert (eraseOk : Bool) (alert : Option AlertData)
    (s : SchedulerState) : SchedulerState :=
  match alert with
  | none => s
  | some a =>
      if eraseOk then
        notifyObserver a.token a.typeName ObsState.deleted ""
          { s with storage := eraseRows a.token s.storage }
      else s

/-- `AlertScheduler::deactivateActiveAlertHelperLocked`. -/
def deactivateActiveAlertHelperLocked (reason : StopReason)
    (s : SchedulerState) : SchedulerState :=
  match s.activeAlert with
  | none => s
  | some a => { s with activeAlert := some (deactivateAlert reason a) }

/-- `AlertScheduler::setTimerForNextAlertLocked`: stop any running timer;
return if an alert is active or the set is empty; otherwise take
`begin()`, read the clock (`now?`, `none` = failure), clamp the wait to
zero; at zero notify `READY` immediately, else arm the timer with a
callback capturing the token and type. -/
def setTimerForNextAlertLocked (now? : Option Int) (s : SchedulerState) :
    SchedulerState :=
  let s := { s with timer := none }
  if s.activeAlert.isSome then s
  else
    match nextAlert s.scheduledAlerts with
    | none => s
    | some alert =>
        match now? with
        | none => s
        | some timeNow =>
            let secondsToWait := alert.scheduledTime - timeNow
            let secondsToWait := if secondsToWait < 0 then 0 else secondsToWait
            if secondsToWait = 0 then
              notifyObserver alert.token alert.typeName ObsState.ready "" s
            else
              { s with timer := some ⟨secondsToWait, alert.token, alert.typeName⟩ }

/-- `AlertScheduler::activateNextAlertLocked`: no-op when an alert is
already active or the set is empty; otherwise move `begin()` into the
active slot, hand it the current focus state and activate it.  (It does
not touch the timer.) -/
def activateNextAlertLocked (s : SchedulerState) : SchedulerState :=
  if s.activeAlert.isSome then s
  else
    match nextAlert s.scheduledAlerts with
    | none => s
    | some a =>
        { s with
            activeAlert := some (activateAlert (setAlertFocus s.focusState a))
            scheduledAlerts := eraseAlertFromSet a s.scheduledAlerts }

/-- The body of the `FinallyGuard` declared in `updateAlert`: before every
exit of `updateAlert`, re-insert the alert into the set and re-arm the
timer when no alert is active. -/
def updateAlertFinally (now? : Option Int) (a : AlertData)
    (st : SchedulerState) : SchedulerState :=
  let st := { st with scheduledAlerts := insertAlert a st.scheduledAlerts }
  if st.activeAlert.isSome then st else setTimerForNextAlertLocked now? st

/-- `AlertScheduler::updateAlert(alert, newScheduledTime)`: erase the
alert from the set; under a `FinallyGuard` that re-inserts it and re-arms
the timer when no alert is active, try `updateScheduledTime` (succeeds iff
the new time is valid per the `validTime` oracle, modelling ISO-8601
parsing of the Alert entity), then storage `modify` (`modifyOk` oracle);
on modify failure restore the saved old scheduled time. -/
def updateAlert (now? : Option Int) (validTime : Int → Bool) (modifyOk : Bool)
    (alert : AlertData) (newScheduledTime : Int) (s : SchedulerState) :
    Bool × SchedulerState :=
  let s1 : SchedulerState :=
    { s with scheduledAlerts := eraseAlertFromSet alert s.scheduledAlerts }
  if !(validTime newScheduledTime) then
    (false, updateAlertFinally now? alert s1)
  else
    let alert' := { alert with scheduledTime := newScheduledTime }
    if modifyOk then
      (true, updateAlertFinally now? alert'
        { s1 with storage := modifyRow alert' s1.storage })
    else
      let restored :=
        if validTime alert.scheduledTime then
          { alert' with scheduledTime := alert.scheduledTime }
        else alert'
      (false, updateAlertFinally now? restored s1)

/-- `AlertScheduler::scheduleAlert(alert)`: fail on clock failure; reject
a past-due alert; route a duplicate token to `updateAlert`; otherwise
persist (`storeOk` oracle), insert into the set, and re-arm the timer when
no alert is active. -/
def scheduleAlert (now? : Option Int) (tol : Int) (storeOk : Bool)
    (validTime : Int → Bool) (modifyOk : Bool) (alert : AlertData)
    (s : SchedulerState) : Bool × SchedulerState :=
  match now? with
  | none => (false, s)
  | some unixEpochNow =>
      if isPastDue unixEpochNow tol alert then (false, s)
      else
        match getAlertLocked alert.token s.scheduledAlerts with
        | some oldAlert =>
            updateAlert now? validTime modifyOk oldAlert alert.scheduledTime s
        | none =>
            if !storeOk then (false, s)
            else
              let s :=
                { s with
                    storage := s.storage ++ [alert]
                    scheduledAlerts := insertAlert alert s.scheduledAlerts }
              if s.activeAlert.isSome then (true, s)
              else (true, setTimerForNextAlertLocked now? s)

/-- `AlertScheduler::snoozeAlert(token, updatedTime)`: valid only against
the currently active alert. -/
def snoozeAlert (tok : String) (updatedTime : Int) (s : SchedulerState) :
    Bool × SchedulerState :=
  match s.activeAlert with
  | none => (false, s)
  | some a =>
      if a.token = tok then
        (true, { s with activeAlert := some (snoozeAlertEntity updatedTime a) })
      else (false, s)

/-- `AlertScheduler::deleteAlert(token)`: a token matching the active
alert deactivates it with `AVS_STOP` and returns; a missing token returns
success; otherwise `eraseAlert` (storage erase with `eraseOk` oracle),
removal from the set, and timer re-arm. -/
def deleteAlert (now? : Option Int) (eraseOk : Bool) (tok : String)
    (s : SchedulerState) : Bool × SchedulerState :=
  if s.activeAlert.map (fun a => a.token) = some tok then
    (true, deactivateActiveAlertHelperLocked StopReason.avsStop s)
  else
    match getAlertLocked tok s.scheduledAlerts with
    | none => (true, s)
    | some alert =>
        let s := eraseAlert eraseOk (some alert) s
        let s :=
          { s with scheduledAlerts := eraseAlertFromSet alert s.scheduledAlerts }
        (true, setTimerForNextAlertLocked now? s)

/-- One iteration of the collection loop of `AlertScheduler::deleteAlerts`:
a token matching the active alert records `deleteActiveAlert` and collects
it; otherwise a set hit is collected; a miss is skipped. -/
def collectStep (s : SchedulerState) (acc : Bool × List AlertData)
    (tok : String) : Bool × List AlertData :=
  if s.activeAlert.map (fun a => a.token) = some tok then
    (true, acc.2 ++ (s.activeAlert.map (fun a => [a])).getD [])
  else
    match getAlertLocked tok s.scheduledAlerts with
    | none => acc
    | some a => (acc.1, acc.2 ++ [a])

/-- The collection loop of `AlertScheduler::deleteAlerts` over the whole
token list. -/
def collectForDelete (s : SchedulerState) (tokenList : List String) :
    Bool × List AlertData :=
  tokenList.foldl (collectStep s) (false, [])

/-- One iteration of the removal loop of `AlertScheduler::deleteAlerts`:
erase the collected alert from the scheduled set and notify `DELETED`. -/
def removeStep (st : SchedulerState) (a : AlertData) : SchedulerState :=
  notifyObserver a.token a.typeName ObsState.deleted ""
    { st with scheduledAlerts := eraseAlertFromSet a st.scheduledAlerts }

/-- `AlertScheduler::deleteAlerts(tokenList)`: collect the matches, run
one storage `bulkErase` (`bulkOk` oracle) and fail without mutating on its
failure; then deactivate and clear the active alert when it was collected,
remove every collected alert from the set notifying `DELETED` for each,
and re-arm the timer. -/
def deleteAlerts (now? : Option Int) (bulkOk : Bool) (tokenList : List String)
    (s : SchedulerState) : Bool × SchedulerState :=
  let collected := collectForDelete s tokenList
  if !bulkOk then (false, s)
  else
    let s := { s with storage := bulkEraseRows collected.2 s.storage }
    let s :=
      if collected.1 then
        { deactivateActiveAlertHelperLocked StopReason.avsStop s with
            activeAlert := none }
      else s
    let s := collected.2.foldl removeStep s
    (true, setTimerForNextAlertLocked now? s)

/-- `AlertScheduler::isAlertActiveLocked(alert)`: the active slot holds an
alert with the same token whose state is `Activating` or `Active`. -/
def isAlertActiveLocked (alert : AlertData) (s : SchedulerState) : Bool :=
  match s.activeAlert with
  | none => false
  | some act =>
      if act.token ≠ alert.token then false
      else decide (act.state = AlertState.activating ∨ act.state = AlertState.active)

/-- `AlertScheduler::updateFocus(focusState)`: no-op when unchanged; on
`FOREGROUND`/`BACKGROUND` forward focus to the active alert and notify, or
promote the next scheduled alert; on `NONE` deactivate with `LOCAL_STOP`. -/
def updateFocus (focus : FocusState) (s : SchedulerState) : SchedulerState :=
  if s.focusState = focus then s
  else
    let s := { s with focusState := focus }
    match focus with
    | FocusState.foreground =>
        match s.activeAlert with
        | some act =>
            notifyObserver act.token act.typeName
              ObsState.focusEnteredForeground ""
              { s with activeAlert := some (setAlertFocus focus act) }
        | none => activateNextAlertLocked s
    | FocusState.background =>
        match s.activeAlert with
        | some act =>
            notifyObserver act.token act.typeName
              ObsState.focusEnteredBackground ""
              { s with activeAlert := some (setAlertFocus focus act) }
        | none => activateNextAlertLocked s
    | FocusState.noFocus =>
        deactivateActiveAlertHelperLocked StopReason.localStop s

/-- `AlertScheduler::onLocalStop`. -/
def onLocalStop (s : SchedulerState) : SchedulerState :=
  deactivateActiveAlertHelperLocked StopReason.localStop s

/-- `AlertScheduler::clearData(reason)`: deactivate the active alert,
stop the timer, notify `DELETED` for every scheduled alert, clear the set
and clear the storage database. -/
def clearData (reason : StopReason) (s : SchedulerState) : SchedulerState :=
  let s := deactivateActiveAlertHelperLocked reason s
  let s := { s with timer := none }
  let s :=
    s.scheduledAlerts.foldl
      (fun st a => notifyObserver a.token a.typeName ObsState.deleted "" st) s
  { s with scheduledAlerts := [], storage := [] }

/-- The alert object the load loop of `initialize` ends up holding for one
persisted row: an alert that was `ACTIVE` when the system last powered
down is `reset()` back to `Set`. -/
def initLoadAlert (alert : AlertData) : AlertData :=
  if alert.state = AlertState.active then resetAlert alert else alert

/-- One iteration of the load loop in `AlertScheduler::initialize`: a
past-due alert is announced `PAST_DUE` and erased from storage; otherwise
a persisted `ACTIVE` state is reset to `Set` and written back
(`modifyOk` oracle, result ignored by the code) before the alert is
inserted into the scheduled set. -/
def initStep (now tol : Int) (eraseOk modifyOk : String → Bool)
    (s : SchedulerState) (alert : AlertData) : SchedulerState :=
  if isPastDue now tol alert then
    eraseAlert (eraseOk alert.token) (some alert)
      (notifyObserver alert.token alert.typeName ObsState.pastDue "" s)
  else
    let alert' := initLoadAlert alert
    let s :=
      if alert.state = AlertState.active ∧ modifyOk alert.token then
        { s with storage := modifyRow alert' s.storage }
      else s
    { s with scheduledAlerts := insertAlert alert' s.scheduledAlerts }

/-- `AlertScheduler::initialize(observer)`: fail on a null observer, on a
database that can neither be opened nor created, or on clock failure;
load the persisted rows, run `initStep` on each, then arm the timer. -/
def initScheduler (observerPresent openOk createOk : Bool) (now? : Option Int)
    (tol : Int) (eraseOk modifyOk : String → Bool) (s : SchedulerState) :
    Bool × SchedulerState :=
  if !observerPresent then (false, s)
  else if !openOk && !createOk then (false, s)
  else
    match now? with
    | none => (false, s)
    | some unixEpochNow =>
        let rows := s.storage
        let s' := rows.foldl (initStep unixEpochNow tol eraseOk modifyOk) s
        (true, setTimerForNextAlertLocked now? s')

/-- `AlertScheduler::executeOnAlertStateChange(token, type, state,
reason)`: the executor-thread dispatch on the inbound alert state. -/
def executeOnAlertStateChange (now? : Option Int) (eraseOk modifyOk : Bool)
    (tok typ : String) (st : ObsState) (reason : String) (s : SchedulerState) :
    SchedulerState :=
  match st with
  | ObsState.ready => notifyObserver tok typ ObsState.ready reason s
  | ObsState.started =>
      match s.activeAlert with
      | some act =>
          if act.state = AlertState.activating then
            let act' := { act with state := AlertState.active }
            notifyObserver tok typ ObsState.started reason
              { s with
                  activeAlert := some act'
                  storage := if modifyOk then modifyRow act' s.storage else s.storage }
          else s
      | none => s
  | ObsState.stopped =>
      let s := notifyObserver tok typ ObsState.stopped reason s
      let s := eraseAlert eraseOk s.activeAlert s
      let s := { s with activeAlert := none }
      setTimerForNextAlertLocked now? s
  | ObsState.completed =>
      let s := notifyObserver tok typ ObsState.completed reason s
      let s := eraseAlert eraseOk s.activeAlert s
      let s := { s with activeAlert := none }
      setTimerForNextAlertLocked now? s
  | ObsState.snoozed =>
      match s.activeAlert with
      | some act =>
          let s := if modifyOk then { s with storage := modifyRow act s.storage } else s
          let s :=
            { s with
                scheduledAlerts := insertAlert act s.scheduledAlerts
                activeAlert := none }
          let s := notifyObserver tok typ ObsState.snoozed reason s
          setTimerForNextAlertLocked now? s
      | none =>
          let s := notifyObserver tok typ ObsState.snoozed reason s
          setTimerForNextAlertLocked now? s
  | ObsState.pastDue => s
  | ObsState.focusEnteredForeground => s
  | ObsState.focusEnteredBackground => s
  | ObsState.deleted => s
  | ObsState.error =>
      if s.activeAlert.map (fun a => a.token) = some tok then
        let s := eraseAlert eraseOk s.activeAlert s
        let s := { s with activeAlert := none }
        let s := setTimerForNextAlertLocked now? s
        notifyObserver tok typ ObsState.error reason s
      else
        match getAlertLocked tok s.scheduledAlerts with
        | some alert =>
            let s := eraseAlert eraseOk (some alert) s
            let s :=
              { s with scheduledAlerts := eraseAlertFromSet alert s.scheduledAlerts }
            let s := setTimerForNextAlertLocked now? s
            notifyObserver tok typ ObsState.error reason s
        | none => notifyObserver tok typ ObsState.error reason s

/-- The `DELETED` notification `eraseAlert` emits on a successful erase
(used to state notification equations). -/
def eraseAlertNotes (ok : Bool) (a? : Option AlertData) : List Notification :=
  match a?, ok with
  | some a, true => [⟨a.token, a.typeName, ObsState.deleted, ""⟩]
  | _, _ => []

/-- The `READY` notification `setTimerForNextAlertLocked` emits when the
wait clamps to zero, as a function of its inputs (used to state
notification equations). -/
def setTimerNotes (now? : Option Int) (active : Option AlertData)
    (sched : List AlertData) : List Notification :=
  if active.isSome then []
  else
    match nextAlert sched, now? with
    | some a, some timeNow =>
        if (if a.scheduledTime - timeNow < 0 then 0
            else a.scheduledTime - timeNow) = 0 then
          [⟨a.token, a.typeName, ObsState.ready, ""⟩]
        else []
    | _, _ => []

/-- The state of `deleteAlerts` right after the bulk erase and the
optional deactivation/clearing of the active alert (used to state lemmas
about `deleteAlerts`). -/
def afterBulkState (flag : Bool) (l : List AlertData) (s : SchedulerState) :
    SchedulerState :=
  if flag then
    { deactivateActiveAlertHelperLocked StopReason.avsStop
        { s with storage := bulkEraseRows l s.storage } with
      activeAlert := none }
  else { s with storage := bulkEraseRows l s.storage }

/-- The timer contents `setTimerForNextAlertLocked` computes for a given
scheduled set when no alert is active: `none` when the set is empty, the
clock failed, or the wait clamps to zero (immediate `READY`), else the
armed single-shot timer for the first alert. -/
def timerFor (now? : Option Int) (sched : List AlertData) : Option ArmedTimer :=
  match nextAlert sched, now? with
  | some a, some timeNow =>
      let secondsToWait := a.scheduledTime - timeNow
      let secondsToWait := if secondsToWait < 0 then 0 else secondsToWait
      if secondsToWait = 0 then none
      else some ⟨secondsToWait, a.token, a.typeName⟩
  | _, _ => none

/-- The tokens of the alerts held in memory: the scheduled set plus the
active slot. -/
def memTokens (s : SchedulerState) : List String :=
  s.scheduledAlerts.map (fun a => a.token) ++
    (s.activeAlert.map (fun a => [a.token])).getD []

/-- The tokens of the persisted storage rows. -/
def rowTokens (s : SchedulerState) : List String :=
  s.storage.map (fun r => r.token)

/-- Memory–storage consistency: `scheduled ∪ {active}` holds the same
tokens as the set of persisted rows. -/
def memStorageConsistent (s : SchedulerState) : Prop :=
  ∀ tok : String, tok ∈ memTokens s ↔ tok ∈ rowTokens s

/-- The notifications a transition from `pre` to `post` appended to the
log. -/
def emittedSince (pre post : SchedulerState) : List Notification :=
  post.notifications.drop pre.notifications.length

/-- A concrete alert used as a witness input. -/
def alertA : AlertData :=
  ⟨"tokenA", "ALARM", 100, AlertState.isSet, none, FocusState.noFocus⟩

/-- A second concrete alert used as a witness input. -/
def alertB : AlertData :=
  ⟨"tokenB", "TIMER", 200, AlertState.isSet, none, FocusState.noFocus⟩

/-- The empty scheduler state (fresh object, focus `NONE`). -/
def emptyState : SchedulerState :=
  ⟨[], none, FocusState.noFocus, none, [], []⟩

/-- The witness alert `alertA` in its activated form. -/
def alertAactive : AlertData :=
  ⟨"tokenA", "ALARM", 100, AlertState.active, none, FocusState.foreground⟩

/-- A concrete state with one active alert and no scheduled alert. -/
def stateWithActive : SchedulerState :=
  ⟨[], some alertAactive, FocusState.foreground, none, [alertA], []⟩

/-- A concrete state with one scheduled alert and a matching storage row. -/
def stateWithScheduled : SchedulerState :=
  ⟨[alertA], none, FocusState.noFocus, none, [alertA], []⟩

/-- A concrete state with two scheduled alerts and matching storage rows. -/
def stateWithTwoScheduled : SchedulerState :=
  ⟨[alertA, alertB], none, FocusState.noFocus, none, [alertA, alertB], []⟩

/-- A concrete persisted alert that is long past due at time 100. -/
def pastDueAlert : AlertData :=
  ⟨"pastA", "ALARM", 10, AlertState.isSet, none, FocusState.noFocus⟩

/-- A concrete persisted alert left `ACTIVE` by a crash, due at 1000. -/
def crashActiveAlert : AlertData :=
  ⟨"activeB", "ALARM", 1000, AlertState.active, none, FocusState.noFocus⟩

/-- A fresh scheduler state whose storage holds the two persisted rows
above, as found at boot. -/
def stateForInit : SchedulerState :=
  ⟨[], none, FocusState.noFocus, none, [pastDueAlert, crashActiveAlert], []⟩

/-! ## Order lemmas for the scheduled-set comparator -/

lemma alertLt_iff_toLex (a b : AlertData) :
    alertLt a b ↔
      toLex (a.scheduledTime, a.token) < toLex (b.scheduledTime, b.token) := by
  rw [Prod.Lex.lt_iff]
  rfl

lemma alertLt_irrefl (a : AlertData) : ¬ alertLt a a := by
  rw [alertLt_iff_toLex]
  exact lt_irrefl _

lemma alertLt_trans {a b c : AlertData} (h₁ : alertLt a b) (h₂ : alertLt b c) :
    alertLt a c := by
  rw [alertLt_iff_toLex] at *
  exact lt_trans h₁ h₂

lemma sameKey_iff_toLex (a b : AlertData) :
    sameKey a b ↔
      toLex (a.scheduledTime, a.token) = toLex (b.scheduledTime, b.token) := by
  unfold sameKey
  constructor
  · rintro ⟨h1, h2⟩
    simp [toLex, Prod.ext_iff, h1, h2]
  · intro h
    have := congrArg ofLex h
    simp [Prod.ext_iff] at this
    exact this

lemma not_alertLt_iff (a b : AlertData) :
    ¬ alertLt a b ↔ (alertLt b a ∨ sameKey b a) := by
  rw [alertLt_iff_toLex, alertLt_iff_toLex, sameKey_iff_toLex, not_lt,
    le_iff_lt_or_eq]

lemma alertLt_congr_left {a b c : AlertData} (h : sameKey a b) :
    alertLt a c ↔ alertLt b c := by
  rw [alertLt_iff_toLex, alertLt_iff_toLex, (sameKey_iff_toLex a b).mp h]

lemma alertLt_congr_right {a b c : AlertData} (h : sameKey a b) :
    alertLt c a ↔ alertLt c b := by
  rw [alertLt_iff_toLex, alertLt_iff_toLex, (sameKey_iff_toLex a b).mp h]

/-! ## `nextAlert` returns a member that is minimal in
`(scheduledTime, token)` order -/

lemma nextAlert_foldl_mem :
    ∀ (l : List AlertData) (m r : AlertData),
      l.foldl
        (fun acc x =>
          match acc with
          | none => some x
          | some m => if alertLt x m then some x else some m)
        (some m) = some r →
      r = m ∨ r ∈ l := by
  intro l
  induction l with
  | nil => intro m r h; simp at h; exact Or.inl h.symm
  | cons x l ih =>
      intro m r h
      simp only [List.foldl_cons] at h
      by_cases hx : alertLt x m
      · rw [if_pos hx] at h
        rcases ih x r h with h' | h'
        · exact Or.inr (by simp [h'])
        · exact Or.inr (by simp [h'])
      · rw [if_neg hx] at h
        rcases ih m r h with h' | h'
        · exact Or.inl h'
        · exact Or.inr (by simp [h'])

lemma nextAlert_foldl_min :
    ∀ (l : List AlertData) (m r : AlertData),
      l.foldl
        (fun acc x =>
          match acc with
          | none => some x
          | some m => if alertLt x m then some x else some m)
        (some m) = some r →
      ∀ b, (b = m ∨ b ∈ l) → ¬ alertLt b r := by
  intro l
  induction l with
  | nil =>
      intro m r h b hb
      simp at h
      rcases hb with rfl | hb
      · rw [← h]; exact alertLt_irrefl b
      · simp at hb
  | cons x l ih =>
      intro m r h b hb
      simp only [List.foldl_cons] at h
      by_cases hx : alertLt x m
      · rw [if_pos hx] at h
        have hmin := ih x r h
        rcases hb with rfl | hb
        · -- b = m; the fold continued from x with alertLt x m
          intro hbr
          have hxr : ¬ alertLt x r := hmin x (Or.inl rfl)
          rcases (not_alertLt_iff x r).mp hxr with hrx | hkey
          · exact alertLt_irrefl b (alertLt_trans (alertLt_trans hbr hrx) hx)
          · have : alertLt b x := (alertLt_congr_right hkey).mp hbr
            exact alertLt_irrefl b (alertLt_trans this hx)
        · rcases (List.mem_cons).mp hb with rfl | hb
          · exact hmin b (Or.inl rfl)
          · exact hmin b (Or.inr hb)
      · rw [if_neg hx] at h
        have hmin := ih m r h
        rcases hb with rfl | hb
        · exact hmin b (Or.inl rfl)
        · rcases (List.mem_cons).mp hb with rfl | hb
          · -- b = x with ¬ alertLt x m
            intro hbr
            have hmr : ¬ alertLt m r := hmin m (Or.inl rfl)
            rcases (not_alertLt_iff b m).mp hx with hmb | hkey
            · exact hmr (alertLt_trans hmb hbr)
            · exact hmr ((alertLt_congr_left hkey).mpr hbr)
          · exact hmin b (Or.inr hb)

lemma nextAlert_mem {l : List AlertData} {a : AlertData}
    (h : nextAlert l = some a) : a ∈ l := by
  unfold nextAlert at h
  cases l with
  | nil => simp at h
  | cons x l =>
      simp only [List.foldl_cons] at h
      rcases nextAlert_foldl_mem l x a h with rfl | h'
      · exact List.mem_cons_self _ _
      · exact List.mem_cons_of_mem _ h'

lemma nextAlert_min {l : List AlertData} {a : AlertData}
    (h : nextAlert l = some a) : ∀ b ∈ l, ¬ alertLt b a := by
  unfold nextAlert at h
  cases l with
  | nil => simp at h
  | cons x l =>
      simp only [List.foldl_cons] at h
      intro b hb
      rcases (List.mem_cons).mp hb with rfl | hb
      · exact nextAlert_foldl_min l _ a h b (Or.inl rfl)
      · exact nextAlert_foldl_min l _ a h b (Or.inr hb)

/-! ## Basic facts about `setTimerForNextAlertLocked` -/

lemma setTimer_scheduledAlerts (now? : Option Int) (s : SchedulerState) :
    (setTimerForNextAlertLocked now? s).scheduledAlerts = s.scheduledAlerts := by
  simp only [setTimerForNextAlertLocked, notifyObserver]
  repeat' split
  all_goals rfl

lemma setTimer_activeAlert (now? : Option Int) (s : SchedulerState) :
    (setTimerForNextAlertLocked now? s).activeAlert = s.activeAlert := by
  simp only [setTimerForNextAlertLocked, notifyObserver]
  repeat' split
  all_goals rfl

lemma setTimer_storage (now? : Option Int) (s : SchedulerState) :
    (setTimerForNextAlertLocked now? s).storage = s.storage := by
  simp only [setTimerForNextAlertLocked, notifyObserver]
  repeat' split
  all_goals rfl

lemma setTimer_focusState (now? : Option Int) (s : SchedulerState) :
    (setTimerForNextAlertLocked now? s).focusState = s.focusState := by
  simp only [setTimerForNextAlertLocked, notifyObserver]
  repeat' split
  all_goals rfl

lemma setTimer_timer (now? : Option Int) (s : SchedulerState) :
    (setTimerForNextAlertLocked now? s).timer =
      if s.activeAlert.isSome then none
      else timerFor now? s.scheduledAlerts := by
  simp only [setTimerForNextAlertLocked, timerFor, notifyObserver]
  by_cases h : s.activeAlert.isSome
  · simp [h]
  · simp only [h, if_false, Bool.false_eq_true]
    rcases hn : nextAlert s.scheduledAlerts with _ | a
    · cases now? <;> simp [hn]
    · cases now? with
      | none => simp [hn]
      | some timeNow =>
          simp only [hn]
          repeat' split
          all_goals simp_all

/-! ## C1 — timer disarmed while an alert is active -/

/-- C1 (counterexample): the claim "in every state reachable by public
operations, an active alert implies the timer is not armed — in particular
immediately after `activateNext`" is false.  Scheduling an alert (which
arms the timer) and then raising focus to `FOREGROUND` (which promotes it
to the active slot via `activateNextAlertLocked` without stopping the
timer) reaches a state with an active alert and an armed timer. -/
theorem C1_counterexample :
    (updateFocus FocusState.foreground
        (scheduleAlert (some 50) 30 true (fun _ => true) true alertA
          emptyState).2).activeAlert.isSome = true ∧
    (updateFocus FocusState.foreground
        (scheduleAlert (some 50) 30 true (fun _ => true) true alertA
          emptyState).2).timer ≠ none := by
  decide

/-- C1 (amended): `setTimerForNextAlertLocked` itself maintains the
invariant — it stops the timer first and never arms it while an alert is
active, so after any operation whose last timer action is a re-arm an
active alert implies a disarmed timer; but `activateNextAlertLocked`
leaves the timer exactly as it found it, which is why the invariant does
not extend to the state right after a focus-driven activation. -/
theorem C1_timer_disarmed_after_setTimer (now? : Option Int)
    (s : SchedulerState) :
    ((setTimerForNextAlertLocked now? s).activeAlert.isSome →
      (setTimerForNextAlertLocked now? s).timer = none) ∧
    (activateNextAlertLocked s).timer = s.timer := by
  constructor
  · intro h
    rw [setTimer_activeAlert] at h
    rw [setTimer_timer, if_pos h]
  · simp only [activateNextAlertLocked]
    repeat' split
    all_goals rfl

/-- C1 witness: the amended theorem applied at a concrete state whose
active slot is occupied. -/
theorem C1_timer_disarmed_witness :
    (setTimerForNextAlertLocked (some 0) stateWithActive).timer = none :=
  (C1_timer_disarmed_after_setTimer (some 0) stateWithActive).1 (by decide)

/-! ## C8 — the steps of `setTimerForNext` -/

/-- C8: `setTimerForNextAlertLocked` stops any running timer and, with an
active alert or an empty set, does nothing else; otherwise it takes the
first alert in `(scheduledTime, token)` order and with
`delta = max (scheduledTime − now) 0` either emits `READY` at once
(`delta = 0`, no timer started) or arms the single-shot timer for `delta`
seconds capturing the alert's token and type. -/
theorem C8_setTimerForNext (timeNow : Int) (s : SchedulerState) :
    (s.activeAlert.isSome →
      setTimerForNextAlertLocked (some timeNow) s = { s with timer := none }) ∧
    (s.scheduledAlerts = [] →
      setTimerForNextAlertLocked (some timeNow) s = { s with timer := none }) ∧
    (∀ a : AlertData, s.activeAlert = none →
      nextAlert s.scheduledAlerts = some a →
      a ∈ s.scheduledAlerts ∧
      (∀ b ∈ s.scheduledAlerts, ¬ alertLt b a) ∧
      (max (a.scheduledTime - timeNow) 0 = 0 →
        setTimerForNextAlertLocked (some timeNow) s =
          { s with
              timer := none
              notifications := s.notifications ++
                [⟨a.token, a.typeName, ObsState.ready, ""⟩] }) ∧
      (0 < max (a.scheduledTime - timeNow) 0 →
        setTimerForNextAlertLocked (some timeNow) s =
          { s with
              timer := some ⟨max (a.scheduledTime - timeNow) 0,
                a.token, a.typeName⟩ })) := by
  refine ⟨?_, ?_, ?_⟩
  · intro h
    simp only [setTimerForNextAlertLocked]
    simp [h]
  · intro h
    have hn : nextAlert s.scheduledAlerts = none := by rw [h]; rfl
    simp only [setTimerForNextAlertLocked, hn]
    split <;> rfl
  · intro a hact hn
    refine ⟨nextAlert_mem hn, nextAlert_min hn, ?_, ?_⟩
    · intro hz
      have hz' : (if a.scheduledTime - timeNow < 0 then (0:Int)
          else a.scheduledTime - timeNow) = 0 := by
        rcases le_or_lt (a.scheduledTime - timeNow) 0 with h | h
        · split <;> omega
        · exfalso; rw [max_eq_left (by omega : (0:Int) ≤ _)] at hz; omega
      simp only [setTimerForNextAlertLocked, notifyObserver, hact, hn]
      rw [if_pos hz']
      rfl
    · intro hz
      have hne : ¬ ((if a.scheduledTime - timeNow < 0 then (0:Int)
          else a.scheduledTime - timeNow) = 0) := by
        split <;> omega
      have hval : (if a.scheduledTime - timeNow < 0 then (0:Int)
          else a.scheduledTime - timeNow) = max (a.scheduledTime - timeNow) 0 := by
        split <;> omega
      simp only [setTimerForNextAlertLocked, notifyObserver, hact, hn]
      rw [if_neg hne, hval]
      rfl

/-- C8 witness: at a concrete state with one scheduled alert due 50
seconds from now, the theorem yields the armed timer. -/
theorem C8_setTimerForNext_witness :
    setTimerForNextAlertLocked (some 50) stateWithScheduled =
      { stateWithScheduled with timer := some ⟨50, "tokenA", "ALARM"⟩ } := by
  have h := ((C8_setTimerForNext 50 stateWithScheduled).2.2 alertA rfl rfl).2.2.2
    (by decide)
  rw [h]
  decide

lemma setTimer_notifications (now? : Option Int) (s : SchedulerState) :
    ∃ extra : List Notification,
      (setTimerForNextAlertLocked now? s).notifications =
        s.notifications ++ extra ∧
      ∀ n ∈ extra, n.state = ObsState.ready := by
  simp only [setTimerForNextAlertLocked, notifyObserver]
  repeat' split
  all_goals solve
    | (refine ⟨[], ?_, ?_⟩ <;> simp)
    | (refine ⟨[⟨_, _, ObsState.ready, ""⟩], rfl, ?_⟩
       intro n hn
       simp only [List.mem_singleton] at hn
       subst hn
       rfl)

/-! ## Basic facts about `eraseAlert` and token lookup -/

lemma eraseAlert_activeAlert (ok : Bool) (a? : Option AlertData)
    (s : SchedulerState) : (eraseAlert ok a? s).activeAlert = s.activeAlert := by
  unfold eraseAlert notifyObserver
  repeat' split
  all_goals rfl

lemma eraseAlert_scheduledAlerts (ok : Bool) (a? : Option AlertData)
    (s : SchedulerState) :
    (eraseAlert ok a? s).scheduledAlerts = s.scheduledAlerts := by
  unfold eraseAlert notifyObserver
  repeat' split
  all_goals rfl

lemma eraseAlert_focusState (ok : Bool) (a? : Option AlertData)
    (s : SchedulerState) : (eraseAlert ok a? s).focusState = s.focusState := by
  unfold eraseAlert notifyObserver
  repeat' split
  all_goals rfl

lemma eraseAlert_timer (ok : Bool) (a? : Option AlertData)
    (s : SchedulerState) : (eraseAlert ok a? s).timer = s.timer := by
  unfold eraseAlert notifyObserver
  repeat' split
  all_goals rfl

lemma eraseAlert_failed (a? : Option AlertData) (s : SchedulerState) :
    eraseAlert false a? s = s := by
  unfold eraseAlert
  cases a? <;> simp

lemma getAlertLocked_token {tok : String} {l : List AlertData} {a : AlertData}
    (h : getAlertLocked tok l = some a) : a.token = tok := by
  have := List.find?_some h
  simpa using this

lemma getAlertLocked_mem {tok : String} {l : List AlertData} {a : AlertData}
    (h : getAlertLocked tok l = some a) : a ∈ l :=
  List.mem_of_find?_eq_some h

lemma getAlertLocked_erase_none {tok : String} {a : AlertData}
    {l : List AlertData} (hnodup : (l.map (fun x => x.token)).Nodup)
    (hfind : getAlertLocked tok l = some a) :
    getAlertLocked tok (eraseAlertFromSet a l) = none := by
  apply List.find?_eq_none.mpr
  intro b hb
  simp only [eraseAlertFromSet, List.mem_filter] at hb
  obtain ⟨hbl, hbk⟩ := hb
  intro hbt
  have hbt' : b.token = tok := by simpa using hbt
  have hb_eq : b = a :=
    List.inj_on_of_nodup_map hnodup hbl (getAlertLocked_mem hfind)
      (by rw [hbt', getAlertLocked_token hfind])
  subst hb_eq
  simp [sameKey] at hbk

/-! ## C9 — delete always reports success; storage failure still removes
from memory and suppresses the `Deleted` notification -/

/-- C9: `deleteAlert` returns `true` for every input and state; when the
storage erase of a matched scheduled alert fails, the alert is still
removed from the in-memory scheduled set, storage is untouched, and no
`DELETED` notification is emitted. -/
theorem C9_deleteAlert_returns_success (now? : Option Int) (eraseOk : Bool)
    (tok : String) (s : SchedulerState)
    (hnodup : (s.scheduledAlerts.map (fun a => a.token)).Nodup) :
    (deleteAlert now? eraseOk tok s).1 = true ∧
    (eraseOk = false →
      ∀ a : AlertData,
        getAlertLocked tok s.scheduledAlerts = some a →
        s.activeAlert.map (fun x => x.token) ≠ some tok →
        (deleteAlert now? eraseOk tok s).2.storage = s.storage ∧
        getAlertLocked tok (deleteAlert now? eraseOk tok s).2.scheduledAlerts
          = none ∧
        ∀ n ∈ emittedSince s (deleteAlert now? eraseOk tok s).2,
          n.state ≠ ObsState.deleted) := by
  constructor
  · simp only [deleteAlert]
    repeat' split
    all_goals rfl
  · rintro rfl a hfind hact
    have hdel : deleteAlert now? false tok s =
        (true, setTimerForNextAlertLocked now?
          { s with scheduledAlerts := eraseAlertFromSet a s.scheduledAlerts }) := by
      simp only [deleteAlert, hact, if_false, hfind, eraseAlert_failed]
    rw [hdel]
    refine ⟨by rw [setTimer_storage], ?_, ?_⟩
    · rw [setTimer_scheduledAlerts]
      exact getAlertLocked_erase_none hnodup hfind
    · intro n hn
      obtain ⟨extra, hex, hready⟩ := setTimer_notifications now?
        { s with scheduledAlerts := eraseAlertFromSet a s.scheduledAlerts }
      simp only [emittedSince, hex] at hn
      simp only [List.drop_left] at hn
      rw [hready n hn]
      intro hc
      cases hc

/-- C9 witness: the theorem applied at a concrete state with one scheduled
alert and a failing storage erase. -/
theorem C9_witness :
    (deleteAlert (some 0) false "tokenA" stateWithScheduled).1 = true ∧
    (deleteAlert (some 0) false "tokenA" stateWithScheduled).2.storage =
      stateWithScheduled.storage := by
  have h := C9_deleteAlert_returns_success (some 0) false "tokenA"
    stateWithScheduled (by decide)
  exact ⟨h.1, (h.2 rfl alertA (by decide) (by decide)).1⟩

/-! ## C7 — delete is idempotent -/

/-- C7: for every token and every scheduler state with token-unique
scheduled alerts, running `deleteAlert` twice in sequence (with any clock
and storage oracles on each run) yields the same final result — return
value and full state — as running it once; and a token matching neither
the active nor any scheduled alert returns success and changes nothing. -/
theorem C7_deleteAlert_idempotent (now1 now2 : Option Int) (ok1 ok2 : Bool)
    (tok : String) (s : SchedulerState)
    (hnodup : (s.scheduledAlerts.map (fun a => a.token)).Nodup) :
    deleteAlert now2 ok2 tok (deleteAlert now1 ok1 tok s).2 =
      deleteAlert now1 ok1 tok s ∧
    (s.activeAlert.map (fun a => a.token) ≠ some tok →
      getAlertLocked tok s.scheduledAlerts = none →
      deleteAlert now1 ok1 tok s = (true, s)) := by
  constructor
  · by_cases hact : s.activeAlert.map (fun a => a.token) = some tok
    · obtain ⟨act, ha, htok⟩ := Option.map_eq_some'.mp hact
      · have h1 : deleteAlert now1 ok1 tok s =
            (true, { s with activeAlert := some (deactivateAlert StopReason.avsStop act) }) := by
          simp only [deleteAlert, deactivateActiveAlertHelperLocked, ha]
          rw [if_pos (show Option.map (fun a => a.token) (some act) = some tok by
            simp [htok])]
        rw [h1]
        have hact2 :
            ({ s with activeAlert := some (deactivateAlert StopReason.avsStop act) } :
              SchedulerState).activeAlert.map (fun a => a.token) = some tok := by
          simp [deactivateAlert, htok]
        simp only [deleteAlert, deactivateActiveAlertHelperLocked, hact2, if_pos]
        rfl
    · rcases hfind : getAlertLocked tok s.scheduledAlerts with _ | a
      · have h1 : deleteAlert now1 ok1 tok s = (true, s) := by
          simp only [deleteAlert, hfind]
          rw [if_neg hact]
        rw [h1]
        show deleteAlert now2 ok2 tok s = (true, s)
        simp only [deleteAlert, hfind]
        rw [if_neg hact]
      · have h1 : deleteAlert now1 ok1 tok s =
            (true, setTimerForNextAlertLocked now1
              { eraseAlert ok1 (some a) s with
                  scheduledAlerts := eraseAlertFromSet a
                    (eraseAlert ok1 (some a) s).scheduledAlerts }) := by
          simp only [deleteAlert, hfind]
          rw [if_neg hact]
        rw [h1]
        have hactive2 : (setTimerForNextAlertLocked now1
            { eraseAlert ok1 (some a) s with
                scheduledAlerts := eraseAlertFromSet a
                  (eraseAlert ok1 (some a) s).scheduledAlerts }).activeAlert =
            s.activeAlert := by
          rw [setTimer_activeAlert]
          exact eraseAlert_activeAlert ok1 (some a) s
        have hsched2 : (setTimerForNextAlertLocked now1
            { eraseAlert ok1 (some a) s with
                scheduledAlerts := eraseAlertFromSet a
                  (eraseAlert ok1 (some a) s).scheduledAlerts }).scheduledAlerts =
            eraseAlertFromSet a s.scheduledAlerts := by
          rw [setTimer_scheduledAlerts]
          rw [eraseAlert_scheduledAlerts]
        simp only [deleteAlert, hactive2, hsched2,
          getAlertLocked_erase_none hnodup hfind]
        rw [if_neg hact]
  · intro hact hfind
    simp only [deleteAlert, hfind]
    rw [if_neg hact]

/-- C7 witness: deleting the same token twice from a concrete one-alert
state equals deleting it once. -/
theorem C7_witness :
    deleteAlert (some 0) true "tokenA"
        (deleteAlert (some 0) true "tokenA" stateWithScheduled).2 =
      deleteAlert (some 0) true "tokenA" stateWithScheduled :=
  (C7_deleteAlert_idempotent (some 0) (some 0) true true "tokenA"
    stateWithScheduled (by decide)).1

/-! ## Token-membership helpers for the consistency claims -/

lemma mem_map_eraseRows (t tok : String) (rows : List AlertData) :
    t ∈ (eraseRows tok rows).map (fun r => r.token) ↔
      t ∈ rows.map (fun r => r.token) ∧ t ≠ tok := by
  constructor
  · intro h
    obtain ⟨r, hr, rfl⟩ := List.mem_map.mp h
    rw [eraseRows, List.mem_filter] at hr
    refine ⟨List.mem_map.mpr ⟨r, hr.1, rfl⟩, ?_⟩
    simpa using hr.2
  · rintro ⟨ht, hne⟩
    obtain ⟨r, hr, rfl⟩ := List.mem_map.mp ht
    refine List.mem_map.mpr ⟨r, ?_, rfl⟩
    rw [eraseRows, List.mem_filter]
    exact ⟨hr, by simpa using hne⟩

lemma mem_map_eraseAlertFromSet {t : String} {a : AlertData}
    {l : List AlertData} (hnodup : (l.map (fun x => x.token)).Nodup)
    (hmem : a ∈ l) :
    t ∈ (eraseAlertFromSet a l).map (fun x => x.token) ↔
      t ∈ l.map (fun x => x.token) ∧ t ≠ a.token := by
  constructor
  · intro h
    obtain ⟨b, hb, rfl⟩ := List.mem_map.mp h
    rw [eraseAlertFromSet, List.mem_filter] at hb
    refine ⟨List.mem_map.mpr ⟨b, hb.1, rfl⟩, ?_⟩
    intro hbt
    have hb_eq : b = a := List.inj_on_of_nodup_map hnodup hb.1 hmem hbt
    subst hb_eq
    simp [sameKey] at hb
  · rintro ⟨ht, hne⟩
    obtain ⟨b, hb, rfl⟩ := List.mem_map.mp ht
    refine List.mem_map.mpr ⟨b, ?_, rfl⟩
    rw [eraseAlertFromSet, List.mem_filter]
    refine ⟨hb, ?_⟩
    simp only [Bool.not_eq_eq_eq_not, Bool.not_true, decide_eq_false_iff_not]
    intro hk
    exact hne hk.2

lemma mem_activeTokens {t : String} {s : SchedulerState} :
    t ∈ (s.activeAlert.map (fun a => [a.token])).getD [] ↔
      s.activeAlert.map (fun a => a.token) = some t := by
  cases s.activeAlert <;> simp [eq_comm]

lemma setTimer_memTokens (now? : Option Int) (s : SchedulerState) :
    memTokens (setTimerForNextAlertLocked now? s) = memTokens s := by
  unfold memTokens
  rw [setTimer_scheduledAlerts, setTimer_activeAlert]

lemma setTimer_rowTokens (now? : Option Int) (s : SchedulerState) :
    rowTokens (setTimerForNextAlertLocked now? s) = rowTokens s := by
  unfold rowTokens
  rw [setTimer_storage]

/-! ## C2 — memory–storage consistency and the order of erasure -/

/-- C2 (counterexample): the claim "the removal from memory happens only
after the corresponding storage row was successfully deleted, hence after
every public operation `scheduled ∪ {active}` equals the persisted rows"
is false: starting from a consistent one-alert state, `deleteAlert` with a
failing storage erase still removes the alert from the scheduled set and
leaves the row behind, breaking the equality. -/
theorem C2_counterexample :
    memStorageConsistent stateWithScheduled ∧
    ¬ memStorageConsistent
        (deleteAlert (some 0) false "tokenA" stateWithScheduled).2 := by
  constructor
  · intro t
    constructor
    · intro h
      simpa [rowTokens, stateWithScheduled, alertA] using
        (by simpa [memTokens, stateWithScheduled, alertA] using h : t = "tokenA")
    · intro h
      simpa [memTokens, stateWithScheduled, alertA] using
        (by simpa [rowTokens, stateWithScheduled, alertA] using h : t = "tokenA")
  · intro h
    have hmem : "tokenA" ∈
        rowTokens (deleteAlert (some 0) false "tokenA" stateWithScheduled).2 := by
      decide
    have := (h "tokenA").mpr hmem
    revert this
    decide

/-- C2 (amended): `deleteAlert` attempts the storage row deletion (inside
`eraseAlert`) before removing the alert from the scheduled set, but the
in-memory removal proceeds regardless of the storage outcome; when the
storage erase succeeds, the operation preserves the memory–storage
equality `scheduled ∪ {active} = persisted rows` (stated over tokens, for
states whose in-memory tokens are unique). -/
theorem C2_deleteAlert_consistency (now? : Option Int) (tok : String)
    (s : SchedulerState) (hnodup : (memTokens s).Nodup)
    (hcons : memStorageConsistent s) :
    memStorageConsistent (deleteAlert now? true tok s).2 := by
  have hnodupSched : (s.scheduledAlerts.map (fun a => a.token)).Nodup :=
    hnodup.of_append_left
  by_cases hact : s.activeAlert.map (fun a => a.token) = some tok
  · obtain ⟨act, ha, htok⟩ := Option.map_eq_some'.mp hact
    have h1 : (deleteAlert now? true tok s).2 =
        { s with activeAlert := some (deactivateAlert StopReason.avsStop act) } := by
      simp only [deleteAlert, deactivateActiveAlertHelperLocked, ha]
      rw [if_pos (show Option.map (fun a => a.token) (some act) = some tok by
        simp [htok])]
    rw [h1]
    intro t
    have hc := hcons t
    simpa [memTokens, rowTokens, deactivateAlert, ha] using hc
  · rcases hfind : getAlertLocked tok s.scheduledAlerts with _ | a
    · have h1 : (deleteAlert now? true tok s).2 = s := by
        simp only [deleteAlert, hfind]
        rw [if_neg hact]
      rw [h1]
      exact hcons
    · have htok := getAlertLocked_token hfind
      have hmem := getAlertLocked_mem hfind
      have h1 : (deleteAlert now? true tok s).2 =
          setTimerForNextAlertLocked now?
            { eraseAlert true (some a) s with
                scheduledAlerts := eraseAlertFromSet a
                  (eraseAlert true (some a) s).scheduledAlerts } := by
        simp only [deleteAlert, hfind]
        rw [if_neg hact]
      rw [h1]
      intro t
      rw [show (setTimerForNextAlertLocked now?
            { eraseAlert true (some a) s with
                scheduledAlerts := eraseAlertFromSet a
                  (eraseAlert true (some a) s).scheduledAlerts }) =
          setTimerForNextAlertLocked now?
            { eraseAlert true (some a) s with
                scheduledAlerts := eraseAlertFromSet a s.scheduledAlerts } from by
        rw [eraseAlert_scheduledAlerts]]
      have heq1 : eraseAlert true (some a) s =
          notifyObserver a.token a.typeName ObsState.deleted ""
            { s with storage := eraseRows a.token s.storage } := rfl
      constructor
      · intro hmem'
        rw [setTimer_memTokens] at hmem'
        rw [setTimer_rowTokens]
        simp only [memTokens, heq1, notifyObserver, List.mem_append] at hmem'
        simp only [rowTokens, heq1, notifyObserver]
        rcases hmem' with hsched | hactive
        · obtain ⟨htl, htne⟩ :=
            (mem_map_eraseAlertFromSet hnodupSched hmem).mp hsched
          refine (mem_map_eraseRows t a.token s.storage).mpr ⟨?_, htne⟩
          apply (hcons t).mp
          simp only [memTokens, List.mem_append]
          exact Or.inl htl
        · have hat : s.activeAlert.map (fun x => x.token) = some t :=
            mem_activeTokens.mp hactive
          have htne : t ≠ a.token := by
            intro hEq
            rw [hEq, htok] at hat
            exact hact hat
          refine (mem_map_eraseRows t a.token s.storage).mpr ⟨?_, htne⟩
          apply (hcons t).mp
          simp only [memTokens, List.mem_append]
          exact Or.inr (mem_activeTokens.mpr hat)
      · intro hrow
        rw [setTimer_rowTokens] at hrow
        rw [setTimer_memTokens]
        simp only [rowTokens, heq1, notifyObserver] at hrow
        obtain ⟨htl, htne⟩ := (mem_map_eraseRows t a.token s.storage).mp hrow
        have hmems : t ∈ memTokens s := (hcons t).mpr htl
        simp only [memTokens, List.mem_append] at hmems
        simp only [memTokens, heq1, notifyObserver, List.mem_append]
        rcases hmems with hsched | hactive
        · exact Or.inl ((mem_map_eraseAlertFromSet hnodupSched hmem).mpr
            ⟨hsched, htne⟩)
        · exact Or.inr hactive

/-- C2 witness: the amended theorem applied at the consistent one-alert
state with a successful storage erase. -/
theorem C2_witness :
    memStorageConsistent
      (deleteAlert (some 0) true "tokenA" stateWithScheduled).2 := by
  apply C2_deleteAlert_consistency (some 0) "tokenA" stateWithScheduled
    (by decide)
  intro t
  constructor
  · intro h
    simpa [rowTokens, stateWithScheduled, alertA] using
      (by simpa [memTokens, stateWithScheduled, alertA] using h : t = "tokenA")
  · intro h
    simpa [memTokens, stateWithScheduled, alertA] using
      (by simpa [rowTokens, stateWithScheduled, alertA] using h : t = "tokenA")

/-! ## Facts about the update guard, `insertAlert` and `modifyRow` -/

lemma insertAlert_mem_key (a : AlertData) (l : List AlertData) :
    ∃ b ∈ insertAlert a l, sameKey b a := by
  unfold insertAlert
  split
  · rename_i h
    obtain ⟨b, hb, hk⟩ := List.any_eq_true.mp h
    exact ⟨b, hb, of_decide_eq_true hk⟩
  · exact ⟨a, by simp, rfl, rfl⟩

lemma updateAlertFinally_activeAlert (now? : Option Int) (a : AlertData)
    (st : SchedulerState) :
    (updateAlertFinally now? a st).activeAlert = st.activeAlert := by
  simp only [updateAlertFinally]
  split
  · rfl
  · rw [setTimer_activeAlert]

lemma updateAlertFinally_storage (now? : Option Int) (a : AlertData)
    (st : SchedulerState) :
    (updateAlertFinally now? a st).storage = st.storage := by
  simp only [updateAlertFinally]
  split
  · rfl
  · rw [setTimer_storage]

lemma updateAlertFinally_scheduledAlerts (now? : Option Int) (a : AlertData)
    (st : SchedulerState) :
    (updateAlertFinally now? a st).scheduledAlerts =
      insertAlert a st.scheduledAlerts := by
  simp only [updateAlertFinally]
  split
  · rfl
  · rw [setTimer_scheduledAlerts]

lemma updateAlertFinally_timer (now? : Option Int) (a : AlertData)
    (st : SchedulerState) (h : st.activeAlert = none) :
    (updateAlertFinally now? a st).timer =
      timerFor now? (insertAlert a st.scheduledAlerts) := by
  simp only [updateAlertFinally]
  split
  · rename_i hs
    simp [h] at hs
  · rw [setTimer_timer]
    simp [h]

lemma modifyRow_tokens (a : AlertData) (rows : List AlertData) :
    (modifyRow a rows).map (fun r => r.token) = rows.map (fun r => r.token) := by
  unfold modifyRow
  rw [List.map_map]
  apply List.map_congr_left
  intro r _
  dsimp only [Function.comp]
  split
  · rename_i h
    exact h.symm
  · rfl

/-- The three exit paths of `updateAlert`, written out: time-update
failure, storage-modify failure (with the restored alert), and success. -/
lemma updateAlert_cases (now? : Option Int) (validTime : Int → Bool)
    (modifyOk : Bool) (alert : AlertData) (newTime : Int)
    (s : SchedulerState) :
    (validTime newTime = false →
      updateAlert now? validTime modifyOk alert newTime s =
        (false, updateAlertFinally now? alert
          { s with scheduledAlerts := eraseAlertFromSet alert s.scheduledAlerts })) ∧
    (validTime newTime = true → modifyOk = true →
      updateAlert now? validTime modifyOk alert newTime s =
        (true, updateAlertFinally now? { alert with scheduledTime := newTime }
          { s with
              scheduledAlerts := eraseAlertFromSet alert s.scheduledAlerts
              storage := modifyRow { alert with scheduledTime := newTime }
                s.storage })) ∧
    (validTime newTime = true → modifyOk = false →
      validTime alert.scheduledTime = true →
      updateAlert now? validTime modifyOk alert newTime s =
        (false, updateAlertFinally now? alert
          { s with scheduledAlerts := eraseAlertFromSet alert s.scheduledAlerts })) := by
  refine ⟨?_, ?_, ?_⟩
  · intro hv
    simp only [updateAlert, hv, Bool.not_false, if_true]
  · intro hv hm
    simp only [updateAlert, hv, hm, Bool.not_true, Bool.false_eq_true, if_false,
      if_true]
  · intro hv hm hold
    simp only [updateAlert, hv, hm, hold, Bool.not_true, Bool.false_eq_true,
      if_false, if_true]

lemma updateAlert_rowTokens (now? : Option Int) (validTime : Int → Bool)
    (modifyOk : Bool) (alert : AlertData) (newTime : Int) (s : SchedulerState) :
    rowTokens (updateAlert now? validTime modifyOk alert newTime s).2 =
      rowTokens s := by
  have hc := updateAlert_cases now? validTime modifyOk alert newTime s
  by_cases hv : validTime newTime = true
  · by_cases hm : modifyOk = true
    · rw [hc.2.1 hv hm]
      unfold rowTokens
      rw [updateAlertFinally_storage]
      exact modifyRow_tokens _ _
    · have hm' : modifyOk = false := by
        cases h2 : modifyOk
        · rfl
        · exact absurd h2 hm
      by_cases hold : validTime alert.scheduledTime = true
      · rw [hc.2.2 hv hm' hold]
        unfold rowTokens
        rw [updateAlertFinally_storage]
      · have hold' : validTime alert.scheduledTime = false := by
          cases h2 : validTime alert.scheduledTime
          · rfl
          · exact absurd h2 hold
        simp only [updateAlert, hv, hm', hold', Bool.not_true,
          Bool.false_eq_true, if_false]
        unfold rowTokens
        rw [updateAlertFinally_storage]
  · have hv' : validTime newTime = false := by
      cases h2 : validTime newTime
      · rfl
      · exact absurd h2 hv
    rw [hc.1 hv']
    unfold rowTokens
    rw [updateAlertFinally_storage]

lemma updateAlertFinally_timer2 (now? : Option Int) (a : AlertData)
    (st : SchedulerState) (h : st.activeAlert = none) :
    (updateAlertFinally now? a st).timer =
      timerFor now? (updateAlertFinally now? a st).scheduledAlerts := by
  rw [updateAlertFinally_scheduledAlerts]
  exact updateAlertFinally_timer now? a st h

lemma bool_eq_false {b : Bool} (h : ¬ b = true) : b = false := by
  cases b
  · rfl
  · exact absurd rfl h

/-! ## C3 — update rollback and the guard on every exit path -/

/-- C3: provided the pre-call scheduled time is itself a valid time (so
the restoring `updateScheduledTime` succeeds), a failure of the storage
`modify` leaves an alert in the set carrying the pre-call scheduled time;
on every exit path (time-update failure, storage failure, success) an
alert with the updated token is re-inserted into the scheduled set, and
when no alert is active the timer is re-armed for the resulting set. -/
theorem C3_updateAlert_rollback (now? : Option Int) (validTime : Int → Bool)
    (modifyOk : Bool) (alert : AlertData) (newTime : Int) (s : SchedulerState)
    (hold : validTime alert.scheduledTime = true) :
    (validTime newTime = true → modifyOk = false →
      ∃ a' ∈ (updateAlert now? validTime modifyOk alert newTime
          s).2.scheduledAlerts,
        a'.token = alert.token ∧ a'.scheduledTime = alert.scheduledTime) ∧
    (∃ a' ∈ (updateAlert now? validTime modifyOk alert newTime
        s).2.scheduledAlerts, a'.token = alert.token) ∧
    (s.activeAlert = none →
      (updateAlert now? validTime modifyOk alert newTime s).2.timer =
        timerFor now?
          (updateAlert now? validTime modifyOk alert newTime
            s).2.scheduledAlerts) := by
  have hc := updateAlert_cases now? validTime modifyOk alert newTime s
  refine ⟨?_, ?_, ?_⟩
  · intro hv hm
    rw [hc.2.2 hv hm hold]
    dsimp only
    rw [updateAlertFinally_scheduledAlerts]
    obtain ⟨b, hb, hk⟩ := insertAlert_mem_key alert
      (eraseAlertFromSet alert s.scheduledAlerts)
    exact ⟨b, hb, hk.2, hk.1⟩
  · by_cases hv : validTime newTime = true
    · by_cases hm : modifyOk = true
      · rw [hc.2.1 hv hm]
        dsimp only
        rw [updateAlertFinally_scheduledAlerts]
        obtain ⟨b, hb, hk⟩ := insertAlert_mem_key
          { alert with scheduledTime := newTime }
          (eraseAlertFromSet alert s.scheduledAlerts)
        exact ⟨b, hb, hk.2⟩
      · rw [hc.2.2 hv (bool_eq_false hm) hold]
        dsimp only
        rw [updateAlertFinally_scheduledAlerts]
        obtain ⟨b, hb, hk⟩ := insertAlert_mem_key alert
          (eraseAlertFromSet alert s.scheduledAlerts)
        exact ⟨b, hb, hk.2⟩
    · rw [hc.1 (bool_eq_false hv)]
      dsimp only
      rw [updateAlertFinally_scheduledAlerts]
      obtain ⟨b, hb, hk⟩ := insertAlert_mem_key alert
        (eraseAlertFromSet alert s.scheduledAlerts)
      exact ⟨b, hb, hk.2⟩
  · intro hact
    by_cases hv : validTime newTime = true
    · by_cases hm : modifyOk = true
      · rw [hc.2.1 hv hm]
        dsimp only
        exact updateAlertFinally_timer2 _ _ _ hact
      · rw [hc.2.2 hv (bool_eq_false hm) hold]
        dsimp only
        exact updateAlertFinally_timer2 _ _ _ hact
    · rw [hc.1 (bool_eq_false hv)]
      dsimp only
      exact updateAlertFinally_timer2 _ _ _ hact

/-- C3 witness: a failing `modify` on a concrete one-alert state leaves
the alert in the set with its original scheduled time. -/
theorem C3_witness :
    ∃ a' ∈ (updateAlert (some 0) (fun _ => true) false alertA 500
        stateWithScheduled).2.scheduledAlerts,
      a'.token = alertA.token ∧ a'.scheduledTime = alertA.scheduledTime :=
  (C3_updateAlert_rollback (some 0) (fun _ => true) false alertA 500
    stateWithScheduled rfl).1 rfl rfl

/-! ## C5 — schedule rejects past-due alerts and routes duplicates -/

/-- C5: a past-due alert is rejected by `scheduleAlert` with `false` and
the whole state (including storage) unchanged; an alert whose token is
already in the scheduled set is routed to `updateAlert` with the new
scheduled time, and no new storage row appears. -/
theorem C5_scheduleAlert_pastDue_duplicate (now tol : Int) (storeOk : Bool)
    (validTime : Int → Bool) (modifyOk : Bool) (alert : AlertData)
    (s : SchedulerState) :
    (isPastDue now tol alert →
      scheduleAlert (some now) tol storeOk validTime modifyOk alert s =
        (false, s)) ∧
    (¬ isPastDue now tol alert →
      ∀ oldAlert, getAlertLocked alert.token s.scheduledAlerts = some oldAlert →
        scheduleAlert (some now) tol storeOk validTime modifyOk alert s =
          updateAlert (some now) validTime modifyOk oldAlert
            alert.scheduledTime s ∧
        rowTokens (scheduleAlert (some now) tol storeOk validTime modifyOk
          alert s).2 = rowTokens s) := by
  constructor
  · intro hpd
    simp only [scheduleAlert]
    rw [if_pos hpd]
  · intro hnpd oldAlert hfind
    have heq : scheduleAlert (some now) tol storeOk validTime modifyOk alert s =
        updateAlert (some now) validTime modifyOk oldAlert
          alert.scheduledTime s := by
      simp only [scheduleAlert, hfind]
      rw [if_neg hnpd]
    refine ⟨heq, ?_⟩
    rw [heq]
    exact updateAlert_rowTokens _ _ _ _ _ _

/-- C5 witness: a concrete alert scheduled 100s after the epoch is past
due at time 200 with tolerance 30 and is rejected unchanged. -/
theorem C5_witness :
    scheduleAlert (some 200) 30 true (fun _ => true) true alertA emptyState =
      (false, emptyState) :=
  (C5_scheduleAlert_pastDue_duplicate 200 30 true (fun _ => true) true alertA
    emptyState).1 (by decide)

/-! ## Notification equations for `eraseAlert` and `setTimerForNext` -/

lemma eraseAlert_storage_eq (ok : Bool) (a? : Option AlertData)
    (s : SchedulerState) :
    (eraseAlert ok a? s).storage =
      (match a?, ok with
       | some a, true => eraseRows a.token s.storage
       | _, _ => s.storage) := by
  cases a? <;> cases ok <;> simp [eraseAlert, notifyObserver]

lemma eraseAlert_notifications (ok : Bool) (a? : Option AlertData)
    (s : SchedulerState) :
    (eraseAlert ok a? s).notifications =
      s.notifications ++ eraseAlertNotes ok a? := by
  cases a? <;> cases ok <;> simp [eraseAlert, eraseAlertNotes, notifyObserver]

lemma setTimer_notifications_eq (now? : Option Int) (s : SchedulerState) :
    (setTimerForNextAlertLocked now? s).notifications =
      s.notifications ++ setTimerNotes now? s.activeAlert s.scheduledAlerts := by
  simp only [setTimerForNextAlertLocked, setTimerNotes, notifyObserver]
  by_cases h : s.activeAlert.isSome
  · simp [h]
  · simp only [h, Bool.false_eq_true, if_false]
    rcases hn : nextAlert s.scheduledAlerts with _ | a
    · cases now? <;> simp [hn]
    · cases now? with
      | none => simp [hn]
      | some timeNow =>
          simp only [hn]
          repeat' split
          all_goals simp_all

/-! ## C10 — the Stopped and Completed handlers -/

/-- C10: on an inbound `Stopped` event the executor handler clears the
active slot and erases whichever alert occupied it without comparing the
event token to the active alert's token (the conjunct holds for every
event token), re-arms the timer from the untouched scheduled set; with an
empty active slot the storage is untouched and the timer is still
re-armed; and the `Completed` handler performs the identical actions,
its emitted notifications differing only in the forwarded state. -/
theorem C10_stopped_completed_handlers (now? : Option Int)
    (eraseOk modifyOk : Bool) (tok typ reason : String) (s : SchedulerState) :
    (executeOnAlertStateChange now? eraseOk modifyOk tok typ ObsState.stopped
      reason s).activeAlert = none ∧
    (executeOnAlertStateChange now? eraseOk modifyOk tok typ ObsState.stopped
      reason s).scheduledAlerts = s.scheduledAlerts ∧
    (executeOnAlertStateChange now? eraseOk modifyOk tok typ ObsState.stopped
      reason s).timer = timerFor now? s.scheduledAlerts ∧
    (∀ act, s.activeAlert = some act → eraseOk = true →
      act.token ∉ rowTokens (executeOnAlertStateChange now? eraseOk modifyOk
        tok typ ObsState.stopped reason s)) ∧
    (s.activeAlert = none →
      (executeOnAlertStateChange now? eraseOk modifyOk tok typ ObsState.stopped
        reason s).storage = s.storage) ∧
    ((executeOnAlertStateChange now? eraseOk modifyOk tok typ ObsState.stopped
        reason s).storage =
      (executeOnAlertStateChange now? eraseOk modifyOk tok typ
        ObsState.completed reason s).storage ∧
     (executeOnAlertStateChange now? eraseOk modifyOk tok typ ObsState.stopped
        reason s).scheduledAlerts =
      (executeOnAlertStateChange now? eraseOk modifyOk tok typ
        ObsState.completed reason s).scheduledAlerts ∧
     (executeOnAlertStateChange now? eraseOk modifyOk tok typ ObsState.stopped
        reason s).activeAlert =
      (executeOnAlertStateChange now? eraseOk modifyOk tok typ
        ObsState.completed reason s).activeAlert ∧
     (executeOnAlertStateChange now? eraseOk modifyOk tok typ ObsState.stopped
        reason s).timer =
      (executeOnAlertStateChange now? eraseOk modifyOk tok typ
        ObsState.completed reason s).timer ∧
     ∃ rest : List Notification,
       emittedSince s (executeOnAlertStateChange now? eraseOk modifyOk tok typ
         ObsState.stopped reason s) =
           ⟨tok, typ, ObsState.stopped, reason⟩ :: rest ∧
       emittedSince s (executeOnAlertStateChange now? eraseOk modifyOk tok typ
         ObsState.completed reason s) =
           ⟨tok, typ, ObsState.completed, reason⟩ :: rest) := by
  have hS : executeOnAlertStateChange now? eraseOk modifyOk tok typ
      ObsState.stopped reason s =
      setTimerForNextAlertLocked now?
        { eraseAlert eraseOk s.activeAlert
            (notifyObserver tok typ ObsState.stopped reason s) with
          activeAlert := none } := rfl
  have hC : executeOnAlertStateChange now? eraseOk modifyOk tok typ
      ObsState.completed reason s =
      setTimerForNextAlertLocked now?
        { eraseAlert eraseOk s.activeAlert
            (notifyObserver tok typ ObsState.completed reason s) with
          activeAlert := none } := rfl
  refine ⟨?_, ?_, ?_, ?_, ?_, ?_, ?_, ?_, ?_, ?_⟩
  · rw [hS, setTimer_activeAlert]
  · rw [hS, setTimer_scheduledAlerts]
    dsimp only
    rw [eraseAlert_scheduledAlerts]
    rfl
  · rw [hS, setTimer_timer]
    dsimp only
    rw [eraseAlert_scheduledAlerts]
    simp [notifyObserver]
  · intro act ha hok
    intro hmem
    rw [hS, ha, hok, setTimer_rowTokens] at hmem
    simp only [rowTokens] at hmem
    rw [show ({ eraseAlert true (some act)
          (notifyObserver tok typ ObsState.stopped reason s) with
        activeAlert := none } : SchedulerState).storage =
        eraseRows act.token s.storage from
      eraseAlert_storage_eq true (some act) _] at hmem
    exact ((mem_map_eraseRows _ _ _).mp hmem).2 rfl
  · intro h
    rw [hS, h, setTimer_storage]
    rfl
  · rw [hS, hC, setTimer_storage, setTimer_storage]
    dsimp only
    rw [eraseAlert_storage_eq, eraseAlert_storage_eq]
    cases s.activeAlert <;> cases eraseOk <;> rfl
  · rw [hS, hC, setTimer_scheduledAlerts, setTimer_scheduledAlerts]
    dsimp only
    rw [eraseAlert_scheduledAlerts, eraseAlert_scheduledAlerts]
    rfl
  · rw [hS, hC, setTimer_activeAlert, setTimer_activeAlert]
  · rw [hS, hC, setTimer_timer, setTimer_timer]
    dsimp only
    rw [eraseAlert_scheduledAlerts, eraseAlert_scheduledAlerts]
    rfl
  · refine ⟨eraseAlertNotes eraseOk s.activeAlert ++
      setTimerNotes now? none s.scheduledAlerts, ?_, ?_⟩
    · rw [emittedSince, hS, setTimer_notifications_eq]
      dsimp only
      rw [eraseAlert_notifications, eraseAlert_scheduledAlerts]
      simp [notifyObserver, List.drop_left, List.append_assoc]
    · rw [emittedSince, hC, setTimer_notifications_eq]
      dsimp only
      rw [eraseAlert_notifications, eraseAlert_scheduledAlerts]
      simp [notifyObserver, List.drop_left, List.append_assoc]

/-- C10 witness: the theorem applied at a concrete state whose active
alert's token differs from the event token — the active alert's row is
erased anyway. -/
theorem C10_witness :
    alertAactive.token ∉ rowTokens (executeOnAlertStateChange (some 0) true
      true "someOtherToken" "TIMER" ObsState.stopped "" stateWithActive) :=
  (C10_stopped_completed_handlers (some 0) true true "someOtherToken" "TIMER"
    "" stateWithActive).2.2.2.1 alertAactive rfl rfl

/-! ## Facts about the collection and removal loops of `deleteAlerts` -/

lemma collect_mem_mono (s : SchedulerState) :
    ∀ (ts : List String) (acc : Bool × List AlertData) (b : AlertData),
      b ∈ acc.2 → b ∈ (ts.foldl (collectStep s) acc).2 := by
  intro ts
  induction ts with
  | nil => intro acc b hb; exact hb
  | cons t ts ih =>
      intro acc b hb
      simp only [List.foldl_cons]
      apply ih
      unfold collectStep
      split
      · simp [hb]
      · split
        · exact hb
        · simp [hb]

lemma collect_flag_mono (s : SchedulerState) :
    ∀ (ts : List String) (acc : Bool × List AlertData),
      acc.1 = true → (ts.foldl (collectStep s) acc).1 = true := by
  intro ts
  induction ts with
  | nil => intro acc h; exact h
  | cons t ts ih =>
      intro acc h
      simp only [List.foldl_cons]
      apply ih
      unfold collectStep
      split
      · rfl
      · split
        · exact h
        · exact h

lemma collect_sources (s : SchedulerState) :
    ∀ (ts : List String) (acc : Bool × List AlertData) (b : AlertData),
      b ∈ (ts.foldl (collectStep s) acc).2 →
      b ∈ acc.2 ∨ s.activeAlert = some b ∨ b ∈ s.scheduledAlerts := by
  intro ts
  induction ts with
  | nil => intro acc b hb; exact Or.inl hb
  | cons t ts ih =>
      intro acc b hb
      simp only [List.foldl_cons] at hb
      rcases ih (collectStep s acc t) b hb with h | h | h
      · unfold collectStep at h
        split at h
        · rename_i hcond
          rcases ha : s.activeAlert with _ | act
          · rw [ha] at hcond; simp at hcond
          · rw [ha] at h
            simp only [Option.map_some', Option.getD_some, List.mem_append,
              List.mem_singleton] at h
            rcases h with h | h
            · exact Or.inl h
            · subst h
              exact Or.inr (Or.inl rfl)
        · split at h
          · exact Or.inl h
          · rename_i a hfind
            simp only [List.mem_append, List.mem_singleton] at h
            rcases h with h | h
            · exact Or.inl h
            · subst h
              exact Or.inr (Or.inr (getAlertLocked_mem hfind))
      · exact Or.inr (Or.inl h)
      · exact Or.inr (Or.inr h)

lemma collect_active_flag (s : SchedulerState) (act : AlertData)
    (ha : s.activeAlert = some act) :
    ∀ (ts : List String) (acc : Bool × List AlertData),
      act.token ∈ ts → (ts.foldl (collectStep s) acc).1 = true := by
  intro ts
  induction ts with
  | nil => intro acc h; simp at h
  | cons t ts ih =>
      intro acc h
      simp only [List.foldl_cons]
      rcases List.mem_cons.mp h with rfl | h
      · apply collect_flag_mono
        unfold collectStep
        rw [if_pos (by rw [ha]; rfl)]
      · exact ih _ h

lemma collect_active_mem (s : SchedulerState) (act : AlertData)
    (ha : s.activeAlert = some act) :
    ∀ (ts : List String) (acc : Bool × List AlertData),
      act.token ∈ ts → act ∈ (ts.foldl (collectStep s) acc).2 := by
  intro ts
  induction ts with
  | nil => intro acc h; simp at h
  | cons t ts ih =>
      intro acc h
      simp only [List.foldl_cons]
      rcases List.mem_cons.mp h with rfl | h
      · apply collect_mem_mono
        unfold collectStep
        rw [if_pos (by rw [ha]; rfl), ha]
        simp
      · exact ih _ h

lemma collect_sched_mem (s : SchedulerState) (tk : String) (a : AlertData)
    (hact : s.activeAlert.map (fun x => x.token) ≠ some tk)
    (hfind : getAlertLocked tk s.scheduledAlerts = some a) :
    ∀ (ts : List String) (acc : Bool × List AlertData),
      tk ∈ ts → a ∈ (ts.foldl (collectStep s) acc).2 := by
  intro ts
  induction ts with
  | nil => intro acc h; simp at h
  | cons t ts ih =>
      intro acc h
      simp only [List.foldl_cons]
      rcases List.mem_cons.mp h with rfl | h
      · apply collect_mem_mono
        unfold collectStep
        rw [if_neg hact, hfind]
        simp
      · exact ih _ h

lemma removeFold_activeAlert :
    ∀ (l : List AlertData) (st : SchedulerState),
      (l.foldl removeStep st).activeAlert = st.activeAlert := by
  intro l
  induction l with
  | nil => intro st; rfl
  | cons a l ih => intro st; simp only [List.foldl_cons]; rw [ih]; rfl

lemma removeFold_storage :
    ∀ (l : List AlertData) (st : SchedulerState),
      (l.foldl removeStep st).storage = st.storage := by
  intro l
  induction l with
  | nil => intro st; rfl
  | cons a l ih => intro st; simp only [List.foldl_cons]; rw [ih]; rfl

lemma removeFold_notifications :
    ∀ (l : List AlertData) (st : SchedulerState),
      (l.foldl removeStep st).notifications = st.notifications ++
        l.map (fun a => ⟨a.token, a.typeName, ObsState.deleted, ""⟩) := by
  intro l
  induction l with
  | nil => intro st; simp
  | cons a l ih =>
      intro st
      simp only [List.foldl_cons, List.map_cons]
      rw [ih]
      simp [removeStep, notifyObserver]

lemma removeFold_sched_mem :
    ∀ (l : List AlertData) (st : SchedulerState) (b : AlertData),
      b ∈ (l.foldl removeStep st).scheduledAlerts →
      b ∈ st.scheduledAlerts ∧ ∀ a ∈ l, ¬ sameKey b a := by
  intro l
  induction l with
  | nil => intro st b hb; exact ⟨hb, by simp⟩
  | cons a l ih =>
      intro st b hb
      simp only [List.foldl_cons] at hb
      obtain ⟨hb1, hb2⟩ := ih _ b hb
      simp only [removeStep, notifyObserver] at hb1
      rw [eraseAlertFromSet, List.mem_filter] at hb1
      refine ⟨hb1.1, ?_⟩
      intro c hc
      rcases List.mem_cons.mp hc with rfl | hc
      · have := hb1.2
        simp only [Bool.not_eq_eq_eq_not, Bool.not_true,
          decide_eq_false_iff_not] at this
        exact this
      · exact hb2 c hc

lemma deacHelper_scheduledAlerts (r : StopReason) (st : SchedulerState) :
    (deactivateActiveAlertHelperLocked r st).scheduledAlerts =
      st.scheduledAlerts := by
  unfold deactivateActiveAlertHelperLocked
  split <;> rfl

lemma deacHelper_storage (r : StopReason) (st : SchedulerState) :
    (deactivateActiveAlertHelperLocked r st).storage = st.storage := by
  unfold deactivateActiveAlertHelperLocked
  split <;> rfl

lemma deacHelper_notifications (r : StopReason) (st : SchedulerState) :
    (deactivateActiveAlertHelperLocked r st).notifications =
      st.notifications := by
  unfold deactivateActiveAlertHelperLocked
  split <;> rfl

lemma getAlertLocked_of_mem {a : AlertData} {l : List AlertData}
    (hnodup : (l.map (fun x => x.token)).Nodup) (hmem : a ∈ l) :
    getAlertLocked a.token l = some a := by
  rcases hf : getAlertLocked a.token l with _ | a'
  · exfalso
    have := List.find?_eq_none.mp hf a hmem
    simp at this
  · have ht := getAlertLocked_token hf
    have hm := getAlertLocked_mem hf
    rw [List.inj_on_of_nodup_map hnodup hm hmem ht]

lemma mem_setTimerNotes {n : Notification} {now? : Option Int}
    {active : Option AlertData} {sched : List AlertData}
    (h : n ∈ setTimerNotes now? active sched) :
    ∃ a ∈ sched, n = ⟨a.token, a.typeName, ObsState.ready, ""⟩ := by
  unfold setTimerNotes at h
  split at h
  · simp at h
  · split at h
    · rename_i a timeNow heq
      have h' : n = ⟨a.token, a.typeName, ObsState.ready, ""⟩ := by
        by_cases hz : (if a.scheduledTime - timeNow < 0 then (0:Int)
            else a.scheduledTime - timeNow) = 0
        · rw [if_pos hz] at h
          simpa using h
        · rw [if_neg hz] at h
          simp at h
      exact ⟨a, nextAlert_mem heq, h'⟩
    · simp at h

lemma afterBulkState_scheduledAlerts (flag : Bool) (l : List AlertData)
    (s : SchedulerState) :
    (afterBulkState flag l s).scheduledAlerts = s.scheduledAlerts := by
  unfold afterBulkState
  cases flag
  · rfl
  · rw [if_pos rfl]
    dsimp only
    rw [deacHelper_scheduledAlerts]

lemma afterBulkState_notifications (flag : Bool) (l : List AlertData)
    (s : SchedulerState) :
    (afterBulkState flag l s).notifications = s.notifications := by
  unfold afterBulkState
  cases flag
  · rfl
  · rw [if_pos rfl]
    dsimp only
    rw [deacHelper_notifications]

lemma afterBulkState_activeAlert (flag : Bool) (l : List AlertData)
    (s : SchedulerState) :
    (afterBulkState flag l s).activeAlert =
      (if flag then none else s.activeAlert) := by
  cases flag <;> rfl

lemma collectForDelete_flag_of_active {s : SchedulerState} {act : AlertData}
    {tokenList : List String} (ha : s.activeAlert = some act)
    (htk : act.token ∈ tokenList) :
    (collectForDelete s tokenList).1 = true :=
  collect_active_flag s act ha tokenList (false, []) htk

lemma collectForDelete_mem_active {s : SchedulerState} {act : AlertData}
    {tokenList : List String} (ha : s.activeAlert = some act)
    (htk : act.token ∈ tokenList) :
    act ∈ (collectForDelete s tokenList).2 :=
  collect_active_mem s act ha tokenList (false, []) htk

lemma collectForDelete_mem_sched {s : SchedulerState} {tk : String}
    {a : AlertData} {tokenList : List String}
    (hact : s.activeAlert.map (fun x => x.token) ≠ some tk)
    (hfind : getAlertLocked tk s.scheduledAlerts = some a)
    (htk : tk ∈ tokenList) :
    a ∈ (collectForDelete s tokenList).2 :=
  collect_sched_mem s tk a hact hfind tokenList (false, []) htk

lemma collectForDelete_sources {s : SchedulerState} {b : AlertData}
    {tokenList : List String} (hb : b ∈ (collectForDelete s tokenList).2) :
    s.activeAlert = some b ∨ b ∈ s.scheduledAlerts := by
  rcases collect_sources s tokenList (false, []) b hb with h | h | h
  · simp at h
  · exact Or.inl h
  · exact Or.inr h

/-! ## C4 — bulk delete -/

/-- C4: with a failing storage `bulkErase`, `deleteAlerts` returns failure
with the state untouched; on success it returns success, clears the active
slot when the active alert's token was in the batch, removes every matched
scheduled alert from the set, re-arms the timer, emits one `Deleted` per
matched token and emits nothing at all for a token that matched no alert
(for states whose scheduled tokens are unique and whose active token is
not also scheduled). -/
theorem C4_deleteAlerts_bulk (now? : Option Int) (bulkOk : Bool)
    (tokenList : List String) (s : SchedulerState)
    (hnodup : (s.scheduledAlerts.map (fun a => a.token)).Nodup)
    (hActSep : ∀ act, s.activeAlert = some act →
      getAlertLocked act.token s.scheduledAlerts = none) :
    (bulkOk = false → deleteAlerts now? bulkOk tokenList s = (false, s)) ∧
    (bulkOk = true →
      (deleteAlerts now? bulkOk tokenList s).1 = true ∧
      (∀ act, s.activeAlert = some act → act.token ∈ tokenList →
        (deleteAlerts now? bulkOk tokenList s).2.activeAlert = none) ∧
      (∀ a ∈ s.scheduledAlerts, a.token ∈ tokenList →
        a ∉ (deleteAlerts now? bulkOk tokenList s).2.scheduledAlerts) ∧
      ((deleteAlerts now? bulkOk tokenList s).2.timer =
        if (deleteAlerts now? bulkOk tokenList s).2.activeAlert.isSome then
          none
        else timerFor now?
          (deleteAlerts now? bulkOk tokenList s).2.scheduledAlerts) ∧
      (∀ tk ∈ tokenList,
        (s.activeAlert.map (fun a => a.token) = some tk ∨
          (∃ a, getAlertLocked tk s.scheduledAlerts = some a)) →
        ∃ n ∈ emittedSince s (deleteAlerts now? bulkOk tokenList s).2,
          n.state = ObsState.deleted ∧ n.token = tk) ∧
      (∀ tk ∈ tokenList,
        s.activeAlert.map (fun a => a.token) ≠ some tk →
        getAlertLocked tk s.scheduledAlerts = none →
        ∀ n ∈ emittedSince s (deleteAlerts now? bulkOk tokenList s).2,
          n.token ≠ tk)) := by
  constructor
  · intro h
    subst h
    rfl
  · intro h
    subst h
    have hD : deleteAlerts now? true tokenList s =
        (true, setTimerForNextAlertLocked now?
          ((collectForDelete s tokenList).2.foldl removeStep
            (afterBulkState (collectForDelete s tokenList).1
              (collectForDelete s tokenList).2 s))) := rfl
    have hnotes : emittedSince s (deleteAlerts now? true tokenList s).2 =
        (collectForDelete s tokenList).2.map
          (fun a => ⟨a.token, a.typeName, ObsState.deleted, ""⟩) ++
        setTimerNotes now?
          ((collectForDelete s tokenList).2.foldl removeStep
            (afterBulkState (collectForDelete s tokenList).1
              (collectForDelete s tokenList).2 s)).activeAlert
          ((collectForDelete s tokenList).2.foldl removeStep
            (afterBulkState (collectForDelete s tokenList).1
              (collectForDelete s tokenList).2 s)).scheduledAlerts := by
      rw [emittedSince, hD]
      dsimp only
      rw [setTimer_notifications_eq, removeFold_notifications,
        afterBulkState_notifications, List.append_assoc, List.drop_left]
    refine ⟨?_, ?_, ?_, ?_, ?_, ?_⟩
    · rw [hD]
    · intro act ha htk
      rw [hD]
      dsimp only
      rw [setTimer_activeAlert, removeFold_activeAlert,
        afterBulkState_activeAlert, collectForDelete_flag_of_active ha htk]
      simp
    · intro a hmem htk hin
      have hfind : getAlertLocked a.token s.scheduledAlerts = some a :=
        getAlertLocked_of_mem hnodup hmem
      have hactne : s.activeAlert.map (fun x => x.token) ≠ some a.token := by
        intro heq
        obtain ⟨act, ha, htok⟩ := Option.map_eq_some'.mp heq
        have hsep := hActSep act ha
        rw [htok] at hsep
        rw [hsep] at hfind
        cases hfind
      have hColl : a ∈ (collectForDelete s tokenList).2 :=
        collectForDelete_mem_sched hactne hfind htk
      rw [hD] at hin
      dsimp only at hin
      rw [setTimer_scheduledAlerts] at hin
      obtain ⟨_, hall⟩ := removeFold_sched_mem _ _ _ hin
      exact hall a hColl ⟨rfl, rfl⟩
    · rw [hD]
      dsimp only
      rw [setTimer_timer, setTimer_activeAlert, setTimer_scheduledAlerts]
    · intro tk htk hmatch
      rw [hnotes]
      rcases hmatch with hma | ⟨a, hfind⟩
      · obtain ⟨act, ha, htok⟩ := Option.map_eq_some'.mp hma
        refine ⟨⟨act.token, act.typeName, ObsState.deleted, ""⟩, ?_, rfl, htok⟩
        rw [List.mem_append]
        exact Or.inl (List.mem_map.mpr
          ⟨act, collectForDelete_mem_active ha (htok ▸ htk), rfl⟩)
      · by_cases hma : s.activeAlert.map (fun x => x.token) = some tk
        · obtain ⟨act, ha, htok⟩ := Option.map_eq_some'.mp hma
          refine ⟨⟨act.token, act.typeName, ObsState.deleted, ""⟩, ?_, rfl,
            htok⟩
          rw [List.mem_append]
          exact Or.inl (List.mem_map.mpr
            ⟨act, collectForDelete_mem_active ha (htok ▸ htk), rfl⟩)
        · refine ⟨⟨a.token, a.typeName, ObsState.deleted, ""⟩, ?_, rfl,
            getAlertLocked_token hfind⟩
          rw [List.mem_append]
          exact Or.inl (List.mem_map.mpr
            ⟨a, collectForDelete_mem_sched hma hfind htk, rfl⟩)
    · intro tk htk hactne hfindnone
      intro n hn
      rw [hnotes, List.mem_append] at hn
      intro hnt
      rcases hn with hn | hn
      · obtain ⟨b, hb, hbn⟩ := List.mem_map.mp hn
        rcases collectForDelete_sources hb with hsrc | hsrc
        · apply hactne
          subst hbn
          have hbt : b.token = tk := hnt
          rw [hsrc, Option.map_some', hbt]
        · have hbne := List.find?_eq_none.mp hfindnone b hsrc
          subst hbn
          have hbt : b.token = tk := hnt
          rw [hbt] at hbne
          simp at hbne
      · obtain ⟨c, hc, hcn⟩ := mem_setTimerNotes hn
        have hcs : c ∈ s.scheduledAlerts := by
          have h1 := (removeFold_sched_mem _ _ _ hc).1
          rw [afterBulkState_scheduledAlerts] at h1
          exact h1
        have hcne := List.find?_eq_none.mp hfindnone c hcs
        subst hcn
        have hct : c.token = tk := hnt
        rw [hct] at hcne
        simp at hcne

/-- C4 witness: the bulk-delete theorem at scenario S6 — delete `tokenA`,
a missing token and `tokenB` from a two-alert state with a succeeding
bulk erase: success, and a `Deleted` notification for `tokenA`. -/
theorem C4_witness :
    (deleteAlerts (some 0) true ["tokenA", "missing", "tokenB"]
      stateWithTwoScheduled).1 = true ∧
    (∃ n ∈ emittedSince stateWithTwoScheduled
        (deleteAlerts (some 0) true ["tokenA", "missing", "tokenB"]
          stateWithTwoScheduled).2,
      n.state = ObsState.deleted ∧ n.token = "tokenA") := by
  have h := (C4_deleteAlerts_bulk (some 0) true
    ["tokenA", "missing", "tokenB"] stateWithTwoScheduled (by decide)
    (by intro act ha; simp [stateWithTwoScheduled] at ha)).2 rfl
  exact ⟨h.1, h.2.2.2.2.1 "tokenA" (by decide)
    (Or.inr ⟨alertA, by decide⟩)⟩

/-! ## Facts about the load loop of `initialize` -/

lemma insertAlert_mem_src {b' x : AlertData} {l : List AlertData}
    (h : b' ∈ insertAlert x l) : b' ∈ l ∨ b' = x := by
  unfold insertAlert at h
  split at h
  · exact Or.inl h
  · rcases List.mem_append.mp h with h | h
    · exact Or.inl h
    · exact Or.inr (List.mem_singleton.mp h)

lemma insertAlert_mem_mono {b' x : AlertData} {l : List AlertData}
    (h : b' ∈ l) : b' ∈ insertAlert x l := by
  unfold insertAlert
  split
  · exact h
  · exact List.mem_append.mpr (Or.inl h)

lemma insertAlert_self_mem {x : AlertData} {l : List AlertData}
    (h : ∀ m ∈ l, ¬ sameKey m x) : x ∈ insertAlert x l := by
  unfold insertAlert
  rw [if_neg ?_]
  · simp
  · intro hc
    obtain ⟨m, hm, hk⟩ := List.any_eq_true.mp hc
    exact h m hm (of_decide_eq_true hk)

lemma initLoadAlert_token (b : AlertData) :
    (initLoadAlert b).token = b.token := by
  unfold initLoadAlert
  split <;> rfl

lemma initStep_notifications (now tol : Int) (eo mo : String → Bool)
    (st : SchedulerState) (b : AlertData) :
    (initStep now tol eo mo st b).notifications = st.notifications ++
      (if isPastDue now tol b then
        ⟨b.token, b.typeName, ObsState.pastDue, ""⟩ ::
          eraseAlertNotes (eo b.token) (some b)
      else []) := by
  unfold initStep
  split
  · rw [eraseAlert_notifications]
    simp [notifyObserver]
  · dsimp only
    split <;> simp

lemma initStep_activeAlert (now tol : Int) (eo mo : String → Bool)
    (st : SchedulerState) (b : AlertData) :
    (initStep now tol eo mo st b).activeAlert = st.activeAlert := by
  unfold initStep
  split
  · rw [eraseAlert_activeAlert]
    rfl
  · dsimp only
    split <;> rfl

lemma initStep_storage_token_mono {t : String} {now tol : Int}
    {eo mo : String → Bool} {st : SchedulerState} {b : AlertData}
    (h : t ∈ (initStep now tol eo mo st b).storage.map (fun r => r.token)) :
    t ∈ st.storage.map (fun r => r.token) := by
  unfold initStep at h
  split at h
  · rw [show (eraseAlert (eo b.token) (some b)
        (notifyObserver b.token b.typeName ObsState.pastDue "" st)).storage =
        (match some b, eo b.token with
         | some a, true => eraseRows a.token
             (notifyObserver b.token b.typeName ObsState.pastDue "" st).storage
         | _, _ =>
             (notifyObserver b.token b.typeName ObsState.pastDue ""
               st).storage) from eraseAlert_storage_eq _ _ _] at h
    rcases heo : eo b.token
    · rw [heo] at h
      exact h
    · rw [heo] at h
      exact ((mem_map_eraseRows t b.token _).mp h).1
  · dsimp only at h
    split at h
    · rw [show ({ st with storage := modifyRow (initLoadAlert b) st.storage } :
          SchedulerState).storage = modifyRow (initLoadAlert b) st.storage
          from rfl, modifyRow_tokens] at h
      exact h
    · exact h

lemma initStep_row_keep {row : AlertData} {now tol : Int}
    {eo mo : String → Bool} {st : SchedulerState} {b : AlertData}
    (hne : b.token ≠ row.token) (h : row ∈ st.storage) :
    row ∈ (initStep now tol eo mo st b).storage := by
  unfold initStep
  split
  · rw [show (eraseAlert (eo b.token) (some b)
        (notifyObserver b.token b.typeName ObsState.pastDue "" st)).storage =
        (match some b, eo b.token with
         | some a, true => eraseRows a.token
             (notifyObserver b.token b.typeName ObsState.pastDue "" st).storage
         | _, _ =>
             (notifyObserver b.token b.typeName ObsState.pastDue ""
               st).storage) from eraseAlert_storage_eq _ _ _]
    rcases heo : eo b.token
    · exact h
    · simp only [eraseRows, List.mem_filter]
      refine ⟨h, ?_⟩
      simpa using fun hc => hne hc.symm
  · dsimp only
    split
    · rw [show ({ st with storage := modifyRow (initLoadAlert b) st.storage } :
          SchedulerState).storage = modifyRow (initLoadAlert b) st.storage
          from rfl]
      have hrow : ¬ row.token = (initLoadAlert b).token := by
        rw [initLoadAlert_token]
        intro hc
        exact hne hc.symm
      unfold modifyRow
      refine List.mem_map.mpr ⟨row, h, ?_⟩
      rw [if_neg hrow]
    · exact h

lemma initStep_sched_sources {b' : AlertData} {now tol : Int}
    {eo mo : String → Bool} {st : SchedulerState} {b : AlertData}
    (h : b' ∈ (initStep now tol eo mo st b).scheduledAlerts) :
    b' ∈ st.scheduledAlerts ∨
      (¬ isPastDue now tol b ∧ b' = initLoadAlert b) := by
  unfold initStep at h
  split at h
  · rw [eraseAlert_scheduledAlerts] at h
    exact Or.inl h
  · rename_i hpd
    dsimp only at h
    rw [show (if b.state = AlertState.active ∧ mo b.token then
        { st with storage := modifyRow (initLoadAlert b) st.storage }
        else st : SchedulerState).scheduledAlerts = st.scheduledAlerts from by
      split <;> rfl] at h
    rcases insertAlert_mem_src h with h | h
    · exact Or.inl h
    · exact Or.inr ⟨hpd, h⟩

lemma initStep_sched_mono {b' : AlertData} {now tol : Int}
    {eo mo : String → Bool} {st : SchedulerState} {b : AlertData}
    (h : b' ∈ st.scheduledAlerts) :
    b' ∈ (initStep now tol eo mo st b).scheduledAlerts := by
  unfold initStep
  split
  · rw [eraseAlert_scheduledAlerts]
    exact h
  · dsimp only
    apply insertAlert_mem_mono
    rw [show (if b.state = AlertState.active ∧ mo b.token then
        { st with storage := modifyRow (initLoadAlert b) st.storage }
        else st : SchedulerState).scheduledAlerts = st.scheduledAlerts from by
      split <;> rfl]
    exact h

lemma initFold_notifications_count (now tol : Int) (eo mo : String → Bool)
    (t : String) :
    ∀ (l : List AlertData) (st : SchedulerState),
      ((l.foldl (initStep now tol eo mo) st).notifications.countP
        (fun n => n.state == ObsState.pastDue && n.token == t)) =
      st.notifications.countP
        (fun n => n.state == ObsState.pastDue && n.token == t) +
      l.countP (fun b => decide (isPastDue now tol b) && (b.token == t)) := by
  intro l
  induction l with
  | nil => intro st; simp
  | cons b l ih =>
      intro st
      simp only [List.foldl_cons, List.countP_cons]
      rw [ih, initStep_notifications, List.countP_append]
      by_cases hpd : isPastDue now tol b
      · rw [if_pos hpd]
        have h1 : List.countP
            (fun n => n.state == ObsState.pastDue && n.token == t)
            (⟨b.token, b.typeName, ObsState.pastDue, ""⟩ ::
              eraseAlertNotes (eo b.token) (some b)) =
            if (b.token == t) = true then 1 else 0 := by
          rw [List.countP_cons]
          have h2 : List.countP
              (fun n => n.state == ObsState.pastDue && n.token == t)
              (eraseAlertNotes (eo b.token) (some b)) = 0 := by
            rcases eo b.token <;> simp [eraseAlertNotes]
          rw [h2]
          by_cases hbt : b.token = t
          · simp [hbt]
          · simp [hbt]
        rw [h1]
        have h3 : (decide (isPastDue now tol b) && (b.token == t)) =
            (b.token == t) := by
          simp [hpd]
        rw [h3]
        by_cases hbt : b.token = t
        · simp [hbt]
          omega
        · simp [hbt]
      · rw [if_neg hpd]
        have h3 : (decide (isPastDue now tol b) && (b.token == t)) = false := by
          simp [hpd]
        rw [h3]
        simp

lemma initFold_storage_token_not_mem {t : String} {now tol : Int}
    {eo mo : String → Bool} :
    ∀ (l : List AlertData) (st : SchedulerState),
      t ∉ st.storage.map (fun r => r.token) →
      t ∉ (l.foldl (initStep now tol eo mo) st).storage.map
        (fun r => r.token) := by
  intro l
  induction l with
  | nil => intro st h; exact h
  | cons b l ih =>
      intro st h
      simp only [List.foldl_cons]
      exact ih _ (fun hc => h (initStep_storage_token_mono hc))

lemma initFold_row_keep {row : AlertData} {now tol : Int}
    {eo mo : String → Bool} :
    ∀ (l : List AlertData) (st : SchedulerState),
      row ∈ st.storage → (∀ b ∈ l, b.token ≠ row.token) →
      row ∈ (l.foldl (initStep now tol eo mo) st).storage := by
  intro l
  induction l with
  | nil => intro st h _; exact h
  | cons b l ih =>
      intro st h hne
      simp only [List.foldl_cons]
      exact ih _ (initStep_row_keep (hne b (List.mem_cons_self _ _)) h)
        (fun c hc => hne c (List.mem_cons_of_mem _ hc))

lemma initFold_sched_mono {b' : AlertData} {now tol : Int}
    {eo mo : String → Bool} :
    ∀ (l : List AlertData) (st : SchedulerState),
      b' ∈ st.scheduledAlerts →
      b' ∈ (l.foldl (initStep now tol eo mo) st).scheduledAlerts := by
  intro l
  induction l with
  | nil => intro st h; exact h
  | cons b l ih =>
      intro st h
      simp only [List.foldl_cons]
      exact ih _ (initStep_sched_mono h)

lemma initFold_sched_sources {b' : AlertData} {now tol : Int}
    {eo mo : String → Bool} :
    ∀ (l : List AlertData) (st : SchedulerState),
      b' ∈ (l.foldl (initStep now tol eo mo) st).scheduledAlerts →
      b' ∈ st.scheduledAlerts ∨
        ∃ b ∈ l, ¬ isPastDue now tol b ∧ b' = initLoadAlert b := by
  intro l
  induction l with
  | nil => intro st h; exact Or.inl h
  | cons b l ih =>
      intro st h
      simp only [List.foldl_cons] at h
      rcases ih _ h with h | ⟨c, hc, hcp, hcb⟩
      · rcases initStep_sched_sources h with h | ⟨hpd, hb⟩
        · exact Or.inl h
        · exact Or.inr ⟨b, List.mem_cons_self _ _, hpd, hb⟩
      · exact Or.inr ⟨c, List.mem_cons_of_mem _ hc, hcp, hcb⟩

lemma initStep_pastDue_token_gone {now tol : Int} {eo mo : String → Bool}
    {st : SchedulerState} {a : AlertData} (hpd : isPastDue now tol a)
    (heo : eo a.token = true) :
    a.token ∉ (initStep now tol eo mo st a).storage.map (fun r => r.token) := by
  unfold initStep
  rw [if_pos hpd]
  rw [show (eraseAlert (eo a.token) (some a)
      (notifyObserver a.token a.typeName ObsState.pastDue "" st)).storage =
      (match some a, eo a.token with
       | some x, true => eraseRows x.token
           (notifyObserver a.token a.typeName ObsState.pastDue "" st).storage
       | _, _ => (notifyObserver a.token a.typeName ObsState.pastDue ""
           st).storage) from eraseAlert_storage_eq _ _ _, heo]
  intro hmem'
  exact ((mem_map_eraseRows _ _ _).mp hmem').2 rfl

lemma initStep_inserts {now tol : Int} {eo mo : String → Bool}
    {st : SchedulerState} {a : AlertData} (hpd : ¬ isPastDue now tol a)
    (hnok : ∀ m ∈ st.scheduledAlerts, ¬ sameKey m (initLoadAlert a)) :
    initLoadAlert a ∈ (initStep now tol eo mo st a).scheduledAlerts := by
  unfold initStep
  rw [if_neg hpd]
  dsimp only
  rw [show (if a.state = AlertState.active ∧ mo a.token then
      { st with storage := modifyRow (initLoadAlert a) st.storage }
      else st : SchedulerState).scheduledAlerts = st.scheduledAlerts from by
    split <;> rfl]
  exact insertAlert_self_mem hnok

lemma initStep_modify_row {now tol : Int} {eo mo : String → Bool}
    {st : SchedulerState} {a : AlertData} (hpd : ¬ isPastDue now tol a)
    (hactst : a.state = AlertState.active) (hmo : mo a.token = true)
    (hmem : a ∈ st.storage) :
    initLoadAlert a ∈ (initStep now tol eo mo st a).storage := by
  unfold initStep
  rw [if_neg hpd]
  dsimp only
  rw [show (if a.state = AlertState.active ∧ mo a.token then
      { st with storage := modifyRow (initLoadAlert a) st.storage }
      else st : SchedulerState).storage =
      modifyRow (initLoadAlert a) st.storage from by
    rw [if_pos ⟨hactst, hmo⟩]]
  exact List.mem_map.mpr ⟨a, hmem, by rw [if_pos (initLoadAlert_token a).symm]⟩

/-! ## C6 — the load loop of initialize -/

/-- C6: on a fresh scheduler whose storage holds token-unique rows,
`initialize` announces `PastDue` exactly once for every past-due row,
erases it from storage (when the storage erase succeeds) and keeps it out
of the scheduled set; every other row persisted as `Active` is reset to
`Set`, written back to storage (when the storage modify succeeds) and
inserted into the scheduled set in the reset state. -/
theorem C6_initialize_load (now tol : Int) (createOk : Bool)
    (eraseOk modifyOk : String → Bool) (s : SchedulerState)
    (hnodup : (s.storage.map (fun r => r.token)).Nodup)
    (hsched0 : s.scheduledAlerts = [])
    (hnotes0 : s.notifications = []) :
    ∀ a ∈ s.storage,
      (isPastDue now tol a →
        ((initScheduler true true createOk (some now) tol eraseOk modifyOk
            s).2.notifications.countP
          (fun n => n.state == ObsState.pastDue && n.token == a.token)) = 1 ∧
        (eraseOk a.token = true →
          a.token ∉ (initScheduler true true createOk (some now) tol eraseOk
            modifyOk s).2.storage.map (fun r => r.token)) ∧
        a.token ∉ (initScheduler true true createOk (some now) tol eraseOk
          modifyOk s).2.scheduledAlerts.map (fun x => x.token)) ∧
      (¬ isPastDue now tol a → a.state = AlertState.active →
        (∃ a' ∈ (initScheduler true true createOk (some now) tol eraseOk
            modifyOk s).2.scheduledAlerts,
          a'.token = a.token ∧ a'.state = AlertState.isSet) ∧
        (modifyOk a.token = true →
          ∃ row ∈ (initScheduler true true createOk (some now) tol eraseOk
              modifyOk s).2.storage,
            row.token = a.token ∧ row.state = AlertState.isSet)) := by
  intro a hmem
  have hnodup0 := hnodup
  have hD : initScheduler true true createOk (some now) tol eraseOk modifyOk
      s = (true, setTimerForNextAlertLocked (some now)
        (s.storage.foldl (initStep now tol eraseOk modifyOk) s)) := rfl
  obtain ⟨l1, l2, hsplit⟩ := List.append_of_mem hmem
  have hmap : s.storage.map (fun r => r.token) =
      l1.map (fun r => r.token) ++ a.token :: l2.map (fun r => r.token) := by
    rw [hsplit]
    simp
  rw [hmap] at hnodup
  have hl1 : ∀ b ∈ l1, b.token ≠ a.token := by
    intro b hb hc
    exact List.disjoint_of_nodup_append hnodup
      (List.mem_map.mpr ⟨b, hb, hc⟩) (List.mem_cons_self _ _)
  have hl2 : ∀ b ∈ l2, b.token ≠ a.token := by
    intro b hb hc
    have h2 := hnodup.of_append_right
    rw [List.nodup_cons] at h2
    exact h2.1 (hc ▸ List.mem_map.mpr ⟨b, hb, rfl⟩)
  constructor
  · intro hpd
    refine ⟨?_, ?_, ?_⟩
    · rw [hD]
      dsimp only
      obtain ⟨extra, hex, hready⟩ := setTimer_notifications (some now)
        (s.storage.foldl (initStep now tol eraseOk modifyOk) s)
      rw [hex, List.countP_append]
      have hextra : extra.countP
          (fun n => n.state == ObsState.pastDue && n.token == a.token) = 0 := by
        rw [List.countP_eq_zero]
        intro n hn
        simp [hready n hn]
      rw [hextra, initFold_notifications_count, hnotes0, hsplit,
        List.countP_append, List.countP_cons]
      have c1 : l1.countP
          (fun b => decide (isPastDue now tol b) && (b.token == a.token)) =
          0 := by
        rw [List.countP_eq_zero]
        intro b hb
        simp [hl1 b hb]
      have c2 : l2.countP
          (fun b => decide (isPastDue now tol b) && (b.token == a.token)) =
          0 := by
        rw [List.countP_eq_zero]
        intro b hb
        simp [hl2 b hb]
      have ca : (decide (isPastDue now tol a) && (a.token == a.token)) =
          true := by
        simp [hpd]
      rw [c1, c2, ca]
      simp
    · intro heo
      rw [hD]
      dsimp only
      intro hc
      rw [setTimer_storage, hsplit, List.foldl_append, List.foldl_cons] at hc
      exact initFold_storage_token_not_mem l2 _
        (initStep_pastDue_token_gone hpd heo) hc
    · rw [hD]
      dsimp only
      rw [setTimer_scheduledAlerts]
      intro hc
      obtain ⟨b', hb', hb't⟩ := List.mem_map.mp hc
      rcases initFold_sched_sources _ _ hb' with h | ⟨b, hb, hbp, hbb⟩
      · rw [hsched0] at h
        cases h
      · have hbt : b.token = a.token := by
          rw [← initLoadAlert_token b, ← hbb, hb't]
        have hba : b = a := List.inj_on_of_nodup_map hnodup0 hb hmem hbt
        rw [hba] at hbp
        exact hbp hpd
  · intro hpd hactst
    constructor
    · rw [hD]
      dsimp only
      rw [setTimer_scheduledAlerts]
      refine ⟨initLoadAlert a, ?_, initLoadAlert_token a, ?_⟩
      · rw [hsplit, List.foldl_append, List.foldl_cons]
        apply initFold_sched_mono
        apply initStep_inserts hpd
        intro m hm hk
        rcases initFold_sched_sources _ _ hm with h | ⟨b, hb, _, hbb⟩
        · rw [hsched0] at h
          cases h
        · apply hl1 b hb
          rw [← initLoadAlert_token b, ← hbb]
          rw [hk.2, initLoadAlert_token a]
      · unfold initLoadAlert
        rw [if_pos hactst]
        rfl
    · intro hmo
      rw [hD]
      dsimp only
      rw [setTimer_storage]
      refine ⟨initLoadAlert a, ?_, initLoadAlert_token a, ?_⟩
      · rw [hsplit, List.foldl_append, List.foldl_cons]
        have ha1 : a ∈ (l1.foldl (initStep now tol eraseOk modifyOk)
            s).storage :=
          initFold_row_keep l1 s hmem hl1
        apply initFold_row_keep l2 _
          (initStep_modify_row hpd hactst hmo ha1)
        intro b hb
        rw [initLoadAlert_token a]
        exact hl2 b hb
      · unfold initLoadAlert
        rw [if_pos hactst]
        rfl

/-- C6 witness: at boot over a storage holding one long-past-due row and
one crash-active row, the past-due row is announced `PastDue` exactly
once. -/
theorem C6_witness :
    ((initScheduler true true true (some 100) 30 (fun _ => true)
        (fun _ => true) stateForInit).2.notifications.countP
      (fun n => n.state == ObsState.pastDue && n.token ==
        pastDueAlert.token)) = 1 := by
  have h := C6_initialize_load 100 30 true (fun _ => true) (fun _ => true)
    stateForInit (by decide) rfl rfl pastDueAlert (by decide)
  exact (h.1 (by decide)).1

end AlertSchedulerModel

